import Mathlib

/-!
# The Windows plugin loader `src/plugin/plugin_loadlibrary.go`

A shallow embedding of `open` and `lookup` together with the two C helpers
`pluginOpen` and `pluginLookup` of the cgo preamble.

* Go strings are `String`s; every character the code inspects (`.`, the suffix
  `.so`, the terminating NUL) is ASCII, so indexing bytes and indexing
  characters agree on them.
* Pointers, handles and addresses are natural numbers, `0` being `NULL`/`nil`.
* A `*Plugin` is an index into the list of allocated records.
* `LoadLibrary`, `GetProcAddress`, `FormatMessage`, the runtime function
  `lastmoduleinit` and the plugin initializer are outside the file; their
  answers are the fields of `Env`, and every call to them is recorded in a
  trace of `Event`s, in program order. The initializer is recorded as a call;
  loads that it starts itself are not followed.
* A `char*` argument is represented by the characters the Go side copied into
  the buffer in front of its terminating NUL.
* `openPlugin` is `open` run by one caller with nobody else running. It is
  composed of `reserve` (lines 53-102, under `pluginsMu`), `awaitLoaded`
  (lines 69-70) and `loadBody` (lines 104-145); `stepCaller` and `runSched`
  let several callers take these steps in any order.
-/

namespace GoPlugin

/-! ## Values -/

/-- The data word of an interface value after `open` has patched it:
`addr a` is the raw address `a`; `ref a` is a pointer to a variable that holds
the address `a` (`unsafe.Pointer(&p)`). -/
inductive Word where
  | addr (a : Nat)
  | ref (a : Nat)
  deriving DecidableEq, Repr

/-- A Go `interface{}` value seen as its two machine words
(`*[2]unsafe.Pointer`): word 0 is the type pointer, word 1 the data word.
The value is `nil` exactly when the type word is `0`. -/
structure Iface where
  typ : Nat
  data : Word
  deriving DecidableEq, Repr

/-- The nil interface value, what a Go map returns for a missing key. -/
def Iface.nil : Iface := ⟨0, Word.addr 0⟩

/-- The state of the channel `loaded`. -/
inductive Chan where
  | nil
  | unclosed
  | closed
  deriving DecidableEq, Repr

/-- Modelled from the spec: the declaration of the record type `Plugin`
(plugin.go) is not part of the source file; it has the four fields that
`open` and `lookup` read and write. `syms = none` is the nil map. -/
structure Plugin where
  pluginpath : String
  err : String
  loaded : Chan
  syms : Option (List (String × Iface))
  deriving DecidableEq, Repr

/-! ## Go maps as association lists -/

/-- Reading `m[key]`. -/
def mapGet {α : Type} : List (String × α) → String → Option α
  | [], _ => none
  | (k, v) :: rest, key => if k = key then some v else mapGet rest key

/-- Writing `m[key] = v`. -/
def mapSet {α : Type} : List (String × α) → String → α → List (String × α)
  | [], key, v => [(key, v)]
  | (k, x) :: rest, key, v =>
    if k = key then (key, v) :: rest else (k, x) :: mapSet rest key v

/-- The keys of a map. -/
def mapKeys {α : Type} (m : List (String × α)) : List String := m.map Prod.fst

/-! ## Process state -/

/-- The package variables `pluginsMu` and `plugins` (lines 155-158) and the
allocated `Plugin` records. `plugins = none` is the nil map. -/
structure State where
  heap : List Plugin
  plugins : Option (List (String × Nat))
  locked : Bool
  deriving DecidableEq, Repr

/-- Reading `plugins[filepath]`; a nil map has no entries. -/
def State.find (s : State) (filepath : String) : Option Nat :=
  match s.plugins with
  | none => none
  | some m => mapGet m filepath

/-- Dereferencing a `*Plugin`. -/
def State.deref (s : State) (p : Nat) : Option Plugin := s.heap[p]?

/-- Applying `f` to the record at address `p`. -/
def heapUpdate : List Plugin → Nat → (Plugin → Plugin) → List Plugin
  | [], _, _ => []
  | r :: rest, 0, f => f r :: rest
  | r :: rest, p + 1, f => r :: heapUpdate rest p f

/-- The process at start: nothing allocated, `plugins` nil, mutex free. -/
def State.init : State := ⟨[], none, false⟩

/-! ## The world outside the file -/

/-- The Windows call whose failure `GetLastError()` reports. -/
inductive FailedCall where
  | loadLibrary (path : String)
  | getProcAddress (h : Nat) (name : String)
  deriving DecidableEq, Repr

/-- Answers of the collaborators within one call of `open`. -/
structure Env where
  /-- `LoadLibrary(path)`; `0` is `NULL`. -/
  LoadLibrary : String → Nat
  /-- `GetProcAddress(h, name)`; `0` is `NULL`. -/
  GetProcAddress : Nat → String → Nat
  /-- `FormatMessage(..., GetLastError(), ..., err, ...)` after the given
  failed call: the text it allocates, or `none` when it fails itself and
  leaves `*err` as it was. -/
  FormatMessage : FailedCall → Option String
  /-- The runtime function `lastmoduleinit()`: plugin path, declared symbols in
  the order in which `range` visits them, and error text. -/
  lastmoduleinit : String × List (String × Iface) × String

/-- What `open` does that is visible from outside, in program order. -/
inductive Event where
  | lock
  | unlock
  | regRead (filepath : String)
  | regWrite (filepath : String) (p : Nat)
  | nativeMap (path : String)
  | moduleInit
  | resolve (h : Nat) (name : String)
  | initCall (pc : Nat)
  | recv (p : Nat)
  | close (p : Nat)
  deriving DecidableEq, Repr

/-- How a call ends. -/
inductive Outcome where
  /-- `return p, nil`. -/
  | ok (p : Nat)
  /-- `return nil, errors.New(msg)`. -/
  | error (msg : String)
  /-- The call is parked at `pluginsMu.Lock()` or at `<-p.loaded`. -/
  | blocked
  /-- Index out of range at `symName[0]`. -/
  | panicked
  /-- A pointer without a record behind it was dereferenced; no Go execution
  does this. -/
  | fault
  deriving DecidableEq, Repr

/-- Outcome, state and trace of a call. -/
structure Result where
  out : Outcome
  st : State
  trace : List Event
  deriving DecidableEq, Repr

/-! ## The C helpers (lines 13-32) -/

/-- `C.GoString(cErr)`; the nil pointer gives the empty string. -/
def goStringErr (cErr : Option String) : String := cErr.getD ""

/-- The C function `pluginOpen(path, err)`: the handle, and `*err` afterwards.
`SetErrorMode` changes none of the results and is left out. -/
def pluginOpen (env : Env) (path : String) (err : Option String) : Nat × Option String :=
  let h := env.LoadLibrary path
  if h = 0 then
    match env.FormatMessage (FailedCall.loadLibrary path) with
    | some msg => (h, some msg)
    | none => (h, err)
  else (h, err)

/-- The C function `pluginLookup(h, name, err)`: the address, and `*err`
afterwards. -/
def pluginLookup (env : Env) (h : Nat) (name : String) (err : Option String) :
    Nat × Option String :=
  let r := env.GetProcAddress h name
  if r = 0 then
    match env.FormatMessage (FailedCall.getProcAddress h name) with
    | some msg => (r, some msg)
    | none => (r, err)
  else (r, err)

/-! ## `open` (lines 51-146) -/

/-- `C.GoString` of the NUL-terminated copy of `name` (line 61): `name` up to
its first NUL. -/
def goString (buf : String) : String :=
  ⟨buf.data.takeWhile (fun c => c ≠ Char.ofNat 0)⟩

/-- Lines 80-82: a trailing `.so` is cut off a name longer than three. -/
def trimSo (name : String) : String :=
  if name.length > 3 ∧ name.data.drop (name.length - 3) = ".so".data then
    ⟨name.data.take (name.length - 3)⟩
  else name

/-- The error of line 67. -/
def previousFailureMsg (name err : String) : String :=
  "plugin.Open(\"" ++ name ++ "\"): " ++ err ++ " (previous failure)"

/-- The errors of lines 76 and 93. -/
def openFailureMsg (name err : String) : String :=
  "plugin.Open(\"" ++ name ++ "\"): " ++ err

/-- The error of line 130. -/
def symbolFailureMsg (name symName err : String) : String :=
  "plugin.Open(\"" ++ name ++ "\"): could not find symbol " ++ symName ++ ": " ++ err

/-- How the loop of lines 117-141 ends. -/
inductive FillResult where
  | filled (updatedSyms : List (String × Iface))
  | failed (msg : String)
  | indexPanic
  deriving DecidableEq, Repr

/-- The loop of lines 117-141 over the entries of `syms` still to visit, with
`updatedSyms` as filled so far. `delete(syms, symName)` only shrinks the map
that is being ranged over and is not visible afterwards. -/
def fillSyms (env : Env) (h : Nat) (pluginpath name : String) :
    Option String → List (String × Iface) → List (String × Iface) →
    FillResult × List Event
  | _, [], updatedSyms => (FillResult.filled updatedSyms, [])
  | cErr, (symName, sym) :: rest, updatedSyms =>
    match symName.data with
    | [] => (FillResult.indexPanic, [])
    | c :: cs =>
      let isFunc : Bool := c = '.'
      let symName := if isFunc then String.mk cs else symName
      let fullName := pluginpath ++ "." ++ symName
      let r := pluginLookup env h fullName cErr
      if r.1 = 0 then
        (FillResult.failed (symbolFailureMsg name symName (goStringErr r.2)),
          [Event.resolve h fullName])
      else
        let sym : Iface := ⟨sym.typ, if isFunc then Word.ref r.1 else Word.addr r.1⟩
        let res := fillSyms env h pluginpath name r.2 rest (mapSet updatedSyms symName sym)
        (res.1, Event.resolve h fullName :: res.2)

/-- Where a caller stands when it has passed lines 53-102 and no longer holds
`pluginsMu`. -/
inductive Phase where
  /-- Parked at `pluginsMu.Lock()`. -/
  | parked
  /-- Returned at line 67, 76 or 93. -/
  | returned (out : Outcome)
  /-- About to receive from `p.loaded` (line 69). -/
  | waiting (p : Nat)
  /-- Owner of the load, about to run lines 104-145 with these locals. -/
  | loading (p h : Nat) (pluginpath : String) (syms : List (String × Iface))
      (name : String) (cErr : Option String)
  deriving DecidableEq, Repr

/-- Lines 53-102: from the entry of `open` to the release of `pluginsMu`. -/
def reserve (env : Env) (s : State) (name : String) : Phase × State × List Event :=
  let filepath := goString name
  if s.locked then (Phase.parked, s, [])
  else
    match s.find filepath with
    | some p =>
      match s.deref p with
      | none => (Phase.returned Outcome.fault, s,
          [Event.lock, Event.regRead filepath, Event.unlock])
      | some r =>
        if r.err ≠ "" then
          (Phase.returned (Outcome.error (previousFailureMsg name r.err)), s,
            [Event.lock, Event.regRead filepath, Event.unlock])
        else (Phase.waiting p, s, [Event.lock, Event.regRead filepath, Event.unlock])
    | none =>
      let o := pluginOpen env name none
      if o.1 = 0 then
        (Phase.returned (Outcome.error (openFailureMsg name (goStringErr o.2))), s,
          [Event.lock, Event.regRead filepath, Event.nativeMap name, Event.unlock])
      else
        let shown := trimSo name
        let plugins := s.plugins.getD []
        let pluginpath := env.lastmoduleinit.1
        let syms := env.lastmoduleinit.2.1
        let errstr := env.lastmoduleinit.2.2
        let p := s.heap.length
        if errstr ≠ "" then
          (Phase.returned (Outcome.error (openFailureMsg shown errstr)),
            ⟨s.heap ++ [⟨pluginpath, errstr, Chan.nil, none⟩],
              some (mapSet plugins filepath p), false⟩,
            [Event.lock, Event.regRead filepath, Event.nativeMap name,
              Event.moduleInit, Event.regWrite filepath p, Event.unlock])
        else
          (Phase.loading p o.1 pluginpath syms shown o.2,
            ⟨s.heap ++ [⟨pluginpath, "", Chan.unclosed, none⟩],
              some (mapSet plugins filepath p), false⟩,
            [Event.lock, Event.regRead filepath, Event.nativeMap name,
              Event.moduleInit, Event.regWrite filepath p, Event.unlock])

/-- Lines 69-70: the receive from `p.loaded` completes once the channel is
closed; until then the caller stays parked. -/
def awaitLoaded (s : State) (p : Nat) : Outcome × List Event :=
  match s.deref p with
  | none => (Outcome.fault, [])
  | some r =>
    match r.loaded with
    | Chan.closed => (Outcome.ok p, [Event.recv p])
    | _ => (Outcome.blocked, [])

/-- Lines 104-145, run by the owner of the load: the optional initializer,
the symbol loop, and the publication of the table. -/
def loadBody (env : Env) (s : State) (p h : Nat) (pluginpath : String)
    (syms : List (String × Iface)) (name : String) (cErr : Option String) : Result :=
  let initStr := pluginpath ++ ".init"
  let i := pluginLookup env h initStr cErr
  let initTrace :=
    if i.1 ≠ 0 then [Event.resolve h initStr, Event.initCall i.1]
    else [Event.resolve h initStr]
  match fillSyms env h pluginpath name i.2 syms [] with
  | (FillResult.filled updatedSyms, tr) =>
    ⟨Outcome.ok p,
      ⟨heapUpdate s.heap p (fun r => ⟨r.pluginpath, r.err, Chan.closed, some updatedSyms⟩),
        s.plugins, s.locked⟩,
      initTrace ++ tr ++ [Event.close p]⟩
  | (FillResult.failed msg, tr) => ⟨Outcome.error msg, s, initTrace ++ tr⟩
  | (FillResult.indexPanic, tr) => ⟨Outcome.panicked, s, initTrace ++ tr⟩

/-- The function `open` (lines 51-146), run by one caller with nobody else
running: outcome, state afterwards and trace. -/
def openPlugin (env : Env) (s : State) (name : String) : Result :=
  match reserve env s name with
  | (Phase.parked, s1, tr) => ⟨Outcome.blocked, s1, tr⟩
  | (Phase.returned out, s1, tr) => ⟨out, s1, tr⟩
  | (Phase.waiting p, s1, tr) =>
    ⟨(awaitLoaded s1 p).1, s1, tr ++ (awaitLoaded s1 p).2⟩
  | (Phase.loading p h pluginpath syms shown cErr, s1, tr) =>
    let r := loadBody env s1 p h pluginpath syms shown cErr
    ⟨r.out, r.st, tr ++ r.trace⟩

/-! ## `lookup` (lines 148-153) -/

/-- The error of line 152. -/
def notFoundMsg (symName pluginpath : String) : String :=
  "plugin: symbol " ++ symName ++ " not found in plugin " ++ pluginpath

/-- Reading `p.syms[symName]`: a nil map and a missing key give the nil
interface value. -/
def symsGet (p : Plugin) (symName : String) : Iface :=
  match p.syms with
  | none => Iface.nil
  | some m => (mapGet m symName).getD Iface.nil

/-- The function `lookup` on the record behind the handle. -/
def lookup (p : Plugin) (symName : String) : Except String Iface :=
  let s := symsGet p symName
  if s.typ ≠ 0 then Except.ok s
  else Except.error (notFoundMsg symName p.pluginpath)

/-- The function `lookup` as a call on a handle in a process state. -/
def lookupCall (st : State) (p : Nat) (symName : String) :
    Option (Except String Iface) × State × List Event :=
  ((st.deref p).map (fun r => lookup r symName), st, [])

/-! ## Example worlds -/

/-- Artifact "sample": maps at handle 7, module path "sample", declares the
data symbol `Version` and the callable `Run`, has no initializer. -/
def sampleEnv : Env where
  LoadLibrary := fun path => if path = "sample" then 7 else 0
  GetProcAddress := fun h name =>
    if h = 7 ∧ name = "sample.Version" then 100
    else if h = 7 ∧ name = "sample.Run" then 200
    else 0
  FormatMessage := fun _ => some "The specified procedure could not be found."
  lastmoduleinit := ("sample", [("Version", ⟨11, Word.addr 0⟩), (".Run", ⟨12, Word.addr 0⟩)], "")

/-- Artifact "broken": `LoadLibrary` fails with "access denied". -/
def brokenEnv : Env where
  LoadLibrary := fun _ => 0
  GetProcAddress := fun _ _ => 0
  FormatMessage := fun _ => some "access denied"
  lastmoduleinit := ("", [], "")

/-- An artifact that maps at handle 5 but whose module-init step reports
`errstr`. -/
def badInitEnv (errstr : String) : Env where
  LoadLibrary := fun _ => 5
  GetProcAddress := fun _ _ => 0
  FormatMessage := fun _ => some "not found"
  lastmoduleinit := ("dup", [], errstr)

/-- An artifact that maps at handle 9, module path "m", with an initializer at
300, declaring `A` (present at 400) and `B` (absent). -/
def missingSymEnv : Env where
  LoadLibrary := fun _ => 9
  GetProcAddress := fun _ name =>
    if name = "m.init" then 300 else if name = "m.A" then 400 else 0
  FormatMessage := fun _ => some "The specified procedure could not be found."
  lastmoduleinit := ("m", [("A", ⟨1, Word.addr 0⟩), ("B", ⟨1, Word.addr 0⟩)], "")


/-! ## Notions used to state the properties -/

/-- Further calls of `open`, one after the other, each with its own world and
its own name. -/
def runOpens : State → List (Env × String) → State
  | s, [] => s
  | s, (env, name) :: rest => runOpens (openPlugin env s name).st rest

/-- The text `s` contains the text `t`. -/
def containsText (s t : String) : Prop := t.data <:+: s.data

instance instDecidableContainsText (s t : String) : Decidable (containsText s t) := by
  unfold containsText
  infer_instance

/-- Calls that leave the Go side: the native map, the module-init step, an
export resolution, the initializer. -/
def isNativeCall : Event → Bool
  | Event.nativeMap _ => true
  | Event.moduleInit => true
  | Event.resolve _ _ => true
  | Event.initCall _ => true
  | _ => false

/-- The record behind `p` is registered under `filepath` and published:
no error, `loaded` closed. -/
def Settled (s : State) (filepath : String) (p : Nat) : Prop :=
  s.locked = false ∧ s.find filepath = some p ∧
    ∃ r, s.deref p = some r ∧ r.err = "" ∧ r.loaded = Chan.closed

/-- A record with failure reason `reason` is registered under `filepath`. -/
def FailedAt (s : State) (filepath reason : String) : Prop :=
  s.locked = false ∧ ∃ p r, s.find filepath = some p ∧ s.deref p = some r ∧ r.err = reason

/-- The state after the owner has put its placeholder into `plugins`. -/
def reservedState (s : State) (filepath pluginpath err : String) (loaded : Chan) : State :=
  ⟨s.heap ++ [⟨pluginpath, err, loaded, none⟩],
    some (mapSet (s.plugins.getD []) filepath s.heap.length), false⟩

/-- The trace of lines 63-102 on the owner's path. -/
def reserveTrace (s : State) (name : String) : List Event :=
  [Event.lock, Event.regRead (goString name), Event.nativeMap name, Event.moduleInit,
    Event.regWrite (goString name) s.heap.length, Event.unlock]

/-- The trace of lines 104-113: the initializer is looked up and, when found,
called. -/
def initTrace (env : Env) (h : Nat) (pluginpath : String) : List Event :=
  if env.GetProcAddress h (pluginpath ++ ".init") ≠ 0 then
    [Event.resolve h (pluginpath ++ ".init"),
      Event.initCall (env.GetProcAddress h (pluginpath ++ ".init"))]
  else [Event.resolve h (pluginpath ++ ".init")]

/-- The record as the owner publishes it at lines 142-144. -/
def publish (updatedSyms : List (String × Iface)) (r : Plugin) : Plugin :=
  ⟨r.pluginpath, r.err, Chan.closed, some updatedSyms⟩

/-- State `t` keeps the mutex, every entry of `plugins` and every record of
state `s`. -/
def Extends (s t : State) : Prop :=
  t.locked = s.locked ∧
  (∀ k p, s.find k = some p → t.find k = some p) ∧
  (∀ p r, s.deref p = some r → t.deref p = some r)

/-- Whether a declared name carries the callable flag, a leading `.`. -/
def isCallable (symName : String) : Bool :=
  match symName.data with
  | [] => false
  | c :: _ => c = '.'

/-- A declared name without the callable flag. -/
def symKey (symName : String) : String :=
  match symName.data with
  | [] => symName
  | c :: cs => if c = '.' then String.mk cs else symName

/-- The interface value stored for a declared symbol resolved at `a`. -/
def patched (symName : String) (sym : Iface) (a : Nat) : Iface :=
  ⟨sym.typ, if isCallable symName then Word.ref a else Word.addr a⟩


/-- The value stored under `symName` in the symbol table of `p`, if any. -/
def storedSym (p : Plugin) (symName : String) : Option Iface :=
  match p.syms with
  | none => none
  | some m => mapGet m symName

/-- Artifact "clash": maps at handle 3, module path "m", and declares both a
data symbol `Run` and a callable `.Run`; `range` visits the data symbol first. -/
def clashEnv : Env where
  LoadLibrary := fun _ => 3
  GetProcAddress := fun _ name => if name = "m.Run" then 200 else 0
  FormatMessage := fun _ => none
  lastmoduleinit := ("m", [("Run", ⟨1, Word.addr 0⟩), (".Run", ⟨2, Word.addr 0⟩)], "")

/-- Whether an event is a call of the plugin initializer. -/
def isInitCall : Event → Bool
  | Event.initCall _ => true
  | _ => false

/-- Whether an event is an export resolution. -/
def isResolve : Event → Bool
  | Event.resolve _ _ => true
  | _ => false

/-- The events of a trace that happen while the caller holds `pluginsMu`:
those after a `lock` and before the next `unlock`. `held` tells whether the
caller holds the mutex where the trace starts. -/
def heldEvents : Bool → List Event → List Event
  | _, [] => []
  | held, e :: rest =>
    match e with
    | Event.lock => heldEvents true rest
    | Event.unlock => heldEvents false rest
    | _ => if held then e :: heldEvents held rest else heldEvents held rest

/-! ## Concurrent callers -/

/-- A caller of `open` between two of its steps. -/
inductive Caller where
  /-- At `pluginsMu.Lock()`, with the argument of the call. -/
  | entering (name : String)
  /-- At `<-p.loaded` (line 69). -/
  | waiting (p : Nat)
  /-- Past line 102 as owner of the load, with its locals. -/
  | loading (p h : Nat) (pluginpath : String) (syms : List (String × Iface))
      (shown : String) (cErr : Option String)
  /-- Returned, or panicked. -/
  | finished (out : Outcome)
  deriving DecidableEq, Repr

/-- One step of one caller: the locked section (lines 53-102) as a whole, which
the mutex makes indivisible; a receive from `loaded`, which goes through only
when the channel is closed; or the load body (lines 104-145), which touches
only the owner's own record. A step that cannot be taken leaves everything as
it is. -/
def stepCaller (env : Env) (s : State) : Caller → Caller × State × List Event
  | Caller.entering name =>
    match reserve env s name with
    | (Phase.parked, s1, tr) => (Caller.entering name, s1, tr)
    | (Phase.returned out, s1, tr) => (Caller.finished out, s1, tr)
    | (Phase.waiting p, s1, tr) => (Caller.waiting p, s1, tr)
    | (Phase.loading p h pluginpath syms shown cErr, s1, tr) =>
      (Caller.loading p h pluginpath syms shown cErr, s1, tr)
  | Caller.waiting p =>
    match awaitLoaded s p with
    | (Outcome.blocked, _) => (Caller.waiting p, s, [])
    | (out, tr) => (Caller.finished out, s, tr)
  | Caller.loading p h pluginpath syms shown cErr =>
    (Caller.finished (loadBody env s p h pluginpath syms shown cErr).out,
      (loadBody env s p h pluginpath syms shown cErr).st,
      (loadBody env s p h pluginpath syms shown cErr).trace)
  | Caller.finished out => (Caller.finished out, s, [])

/-- Several callers running concurrently: the shared state, where each caller
stands, and the events so far. -/
structure Sys where
  st : State
  callers : List Caller
  trace : List Event
  deriving DecidableEq, Repr

/-- The scheduler lets caller `i` take its next step. -/
def stepSys (env : Env) (sys : Sys) (i : Nat) : Sys :=
  match sys.callers[i]? with
  | none => sys
  | some c =>
    ⟨(stepCaller env sys.st c).2.1, sys.callers.set i (stepCaller env sys.st c).1,
      sys.trace ++ (stepCaller env sys.st c).2.2⟩

/-- An interleaving: the callers step in the order the schedule gives. -/
def runSched (env : Env) : Sys → List Nat → Sys
  | sys, [] => sys
  | sys, i :: rest => runSched env (stepSys env sys i) rest

/-- `n` callers that have all just called `open(name)`. -/
def concurrentOpens (s : State) (name : String) (n : Nat) : Sys :=
  ⟨s, List.replicate n (Caller.entering name), []⟩

/-- The steps that `open` takes inside its locked section: the registry
lookup, the native map call, the module-init step and the insertion of the
record. -/
def isLockedStep : Event → Bool
  | Event.regRead _ => true
  | Event.regWrite _ _ => true
  | Event.nativeMap _ => true
  | Event.moduleInit => true
  | _ => false

/-- An interleaving has run to completion: no caller can take a further step,
each one has returned or is parked for good. -/
def Quiescent (env : Env) (sys : Sys) : Prop :=
  ∀ i, i < sys.callers.length → stepSys env sys i = sys

instance instDecidableQuiescent (env : Env) (sys : Sys) : Decidable (Quiescent env sys) := by
  unfold Quiescent
  infer_instance

theorem mapGet_mapSet_self {α : Type} (m : List (String × α)) (k : String) (v : α) :
    mapGet (mapSet m k v) k = some v := by
  induction m with
  | nil => simp [mapSet, mapGet]
  | cons e rest ih =>
    obtain ⟨k0, x⟩ := e
    by_cases h : k0 = k
    · simp [mapSet, mapGet, h]
    · simp [mapSet, mapGet, h, ih]

theorem mapGet_mapSet_ne {α : Type} (m : List (String × α)) (k k2 : String) (v : α)
    (hne : k2 ≠ k) : mapGet (mapSet m k v) k2 = mapGet m k2 := by
  induction m with
  | nil => simp [mapSet, mapGet, Ne.symm hne]
  | cons e rest ih =>
    obtain ⟨k0, x⟩ := e
    by_cases h : k0 = k
    · subst h
      simp [mapSet, mapGet, Ne.symm hne]
    · by_cases h2 : k0 = k2
      · subst h2
        simp [mapSet, mapGet, h]
      · simp [mapSet, mapGet, h, h2, ih]

theorem mapSet_fresh {α : Type} (m : List (String × α)) (k : String) (v : α)
    (hfresh : k ∉ mapKeys m) : mapSet m k v = m ++ [(k, v)] := by
  induction m with
  | nil => simp [mapSet]
  | cons e rest ih =>
    obtain ⟨k0, x⟩ := e
    simp only [mapKeys, List.map_cons, List.mem_cons, not_or] at hfresh
    have h0 : ¬ k0 = k := fun h => hfresh.1 h.symm
    simp [mapSet, h0, ih hfresh.2]

theorem heapUpdate_get_ne (heap : List Plugin) (p q : Nat) (f : Plugin → Plugin)
    (hne : q ≠ p) : (heapUpdate heap p f)[q]? = heap[q]? := by
  induction heap generalizing p q with
  | nil => simp [heapUpdate]
  | cons r rest ih =>
    cases p with
    | zero =>
      cases q with
      | zero => exact absurd rfl hne
      | succ m => simp [heapUpdate]
    | succ n =>
      cases q with
      | zero => simp [heapUpdate]
      | succ m =>
        simp only [heapUpdate, List.getElem?_cons_succ]
        exact ih n m (fun h => hne (by rw [h]))

theorem heapUpdate_append_new (heap : List Plugin) (r : Plugin) (f : Plugin → Plugin) :
    heapUpdate (heap ++ [r]) heap.length f = heap ++ [f r] := by
  induction heap with
  | nil => simp [heapUpdate]
  | cons r0 rest ih => simp [heapUpdate, ih]

theorem get_append_old (heap : List Plugin) (r x : Plugin) (q : Nat)
    (h : heap[q]? = some x) : (heap ++ [r])[q]? = some x := by
  have hq : q < heap.length := by
    by_contra hc
    rw [List.getElem?_eq_none (Nat.le_of_not_lt hc)] at h
    cases h
  rw [List.getElem?_append_left hq]
  exact h

theorem get_append_new (heap : List Plugin) (r : Plugin) :
    (heap ++ [r])[heap.length]? = some r := by
  simp

/-! ## The C helpers -/

theorem pluginOpen_fst (env : Env) (path : String) (err : Option String) :
    (pluginOpen env path err).1 = env.LoadLibrary path := by
  simp only [pluginOpen]
  split
  · split <;> rfl
  · rfl

theorem pluginLookup_fst (env : Env) (h : Nat) (name : String) (err : Option String) :
    (pluginLookup env h name err).1 = env.GetProcAddress h name := by
  simp only [pluginLookup]
  split
  · split <;> rfl
  · rfl

theorem pluginLookup_snd_of_found (env : Env) (h : Nat) (name : String)
    (err : Option String) (hfound : env.GetProcAddress h name ≠ 0) :
    (pluginLookup env h name err).2 = err := by
  unfold pluginLookup
  simp [hfound]

/-! ## The branches of `open` -/

theorem open_parked (env : Env) (s : State) (name : String) (hl : s.locked = true) :
    openPlugin env s name = ⟨Outcome.blocked, s, []⟩ := by
  simp [openPlugin, reserve, hl]

theorem open_hit_fault (env : Env) (s : State) (name : String) (p : Nat)
    (hl : s.locked = false) (hf : s.find (goString name) = some p)
    (hd : s.deref p = none) :
    openPlugin env s name =
      ⟨Outcome.fault, s, [Event.lock, Event.regRead (goString name), Event.unlock]⟩ := by
  simp [openPlugin, reserve, hl, hf, hd]

theorem open_hit_failed (env : Env) (s : State) (name : String) (p : Nat) (r : Plugin)
    (hl : s.locked = false) (hf : s.find (goString name) = some p)
    (hd : s.deref p = some r) (he : r.err ≠ "") :
    openPlugin env s name =
      ⟨Outcome.error (previousFailureMsg name r.err), s,
        [Event.lock, Event.regRead (goString name), Event.unlock]⟩ := by
  simp [openPlugin, reserve, hl, hf, hd, he]

theorem open_hit_wait (env : Env) (s : State) (name : String) (p : Nat) (r : Plugin)
    (hl : s.locked = false) (hf : s.find (goString name) = some p)
    (hd : s.deref p = some r) (he : r.err = "") :
    openPlugin env s name =
      ⟨(awaitLoaded s p).1, s,
        [Event.lock, Event.regRead (goString name), Event.unlock] ++ (awaitLoaded s p).2⟩ := by
  simp [openPlugin, reserve, hl, hf, hd, he]

theorem open_map_failed (env : Env) (s : State) (name : String)
    (hl : s.locked = false) (hf : s.find (goString name) = none)
    (hm : env.LoadLibrary name = 0) :
    openPlugin env s name =
      ⟨Outcome.error (openFailureMsg name (goStringErr (pluginOpen env name none).2)), s,
        [Event.lock, Event.regRead (goString name), Event.nativeMap name, Event.unlock]⟩ := by
  simp [openPlugin, reserve, hl, hf, pluginOpen_fst, hm]

theorem open_init_failed (env : Env) (s : State) (name : String)
    (hl : s.locked = false) (hf : s.find (goString name) = none)
    (hm : env.LoadLibrary name ≠ 0) (he : env.lastmoduleinit.2.2 ≠ "") :
    openPlugin env s name =
      ⟨Outcome.error (openFailureMsg (trimSo name) env.lastmoduleinit.2.2),
        reservedState s (goString name) env.lastmoduleinit.1 env.lastmoduleinit.2.2 Chan.nil,
        reserveTrace s name⟩ := by
  simp [openPlugin, reserve, hl, hf, pluginOpen_fst, hm, he, reservedState, reserveTrace]

theorem open_loading (env : Env) (s : State) (name : String)
    (hl : s.locked = false) (hf : s.find (goString name) = none)
    (hm : env.LoadLibrary name ≠ 0) (he : env.lastmoduleinit.2.2 = "") :
    openPlugin env s name =
      ⟨(loadBody env (reservedState s (goString name) env.lastmoduleinit.1 "" Chan.unclosed)
          s.heap.length (env.LoadLibrary name) env.lastmoduleinit.1 env.lastmoduleinit.2.1
          (trimSo name) (pluginOpen env name none).2).out,
        (loadBody env (reservedState s (goString name) env.lastmoduleinit.1 "" Chan.unclosed)
          s.heap.length (env.LoadLibrary name) env.lastmoduleinit.1 env.lastmoduleinit.2.1
          (trimSo name) (pluginOpen env name none).2).st,
        reserveTrace s name ++
        (loadBody env (reservedState s (goString name) env.lastmoduleinit.1 "" Chan.unclosed)
          s.heap.length (env.LoadLibrary name) env.lastmoduleinit.1 env.lastmoduleinit.2.1
          (trimSo name) (pluginOpen env name none).2).trace⟩ := by
  simp [openPlugin, reserve, hl, hf, pluginOpen_fst, hm, he, reservedState, reserveTrace]

theorem loadBody_cases (env : Env) (s : State) (p h : Nat) (pluginpath : String)
    (syms : List (String × Iface)) (name : String) (cErr : Option String) :
    (∃ upd, (fillSyms env h pluginpath name
          (pluginLookup env h (pluginpath ++ ".init") cErr).2 syms []).1 = FillResult.filled upd ∧
        loadBody env s p h pluginpath syms name cErr =
          ⟨Outcome.ok p, ⟨heapUpdate s.heap p (publish upd), s.plugins, s.locked⟩,
            initTrace env h pluginpath ++
              (fillSyms env h pluginpath name
                (pluginLookup env h (pluginpath ++ ".init") cErr).2 syms []).2 ++
              [Event.close p]⟩) ∨
    (∃ msg, (fillSyms env h pluginpath name
          (pluginLookup env h (pluginpath ++ ".init") cErr).2 syms []).1 = FillResult.failed msg ∧
        loadBody env s p h pluginpath syms name cErr =
          ⟨Outcome.error msg, s,
            initTrace env h pluginpath ++
              (fillSyms env h pluginpath name
                (pluginLookup env h (pluginpath ++ ".init") cErr).2 syms []).2⟩) ∨
    ((fillSyms env h pluginpath name
          (pluginLookup env h (pluginpath ++ ".init") cErr).2 syms []).1 = FillResult.indexPanic ∧
        loadBody env s p h pluginpath syms name cErr =
          ⟨Outcome.panicked, s,
            initTrace env h pluginpath ++
              (fillSyms env h pluginpath name
                (pluginLookup env h (pluginpath ++ ".init") cErr).2 syms []).2⟩) := by
  have hinit : (if (pluginLookup env h (pluginpath ++ ".init") cErr).1 ≠ 0 then
        [Event.resolve h (pluginpath ++ ".init"),
          Event.initCall (pluginLookup env h (pluginpath ++ ".init") cErr).1]
      else [Event.resolve h (pluginpath ++ ".init")]) = initTrace env h pluginpath := by
    simp only [pluginLookup_fst, initTrace]
  rcases hfill : fillSyms env h pluginpath name
      (pluginLookup env h (pluginpath ++ ".init") cErr).2 syms [] with ⟨res, tr⟩
  cases res with
  | filled upd =>
    left
    refine ⟨upd, rfl, ?_⟩
    simp only [loadBody, hfill, hinit]
    rfl
  | failed msg =>
    right; left
    refine ⟨msg, rfl, ?_⟩
    simp only [loadBody, hfill, hinit]
  | indexPanic =>
    right; right
    refine ⟨rfl, ?_⟩
    simp only [loadBody, hfill, hinit]

theorem fillSyms_cons_panic (env : Env) (h : Nat) (pluginpath name : String)
    (cErr : Option String) (symName : String) (sym : Iface)
    (rest upd : List (String × Iface)) (hempty : symName = "") :
    fillSyms env h pluginpath name cErr ((symName, sym) :: rest) upd =
      (FillResult.indexPanic, []) := by
  subst hempty
  simp [fillSyms]

theorem fillSyms_cons_failed (env : Env) (h : Nat) (pluginpath name : String)
    (cErr : Option String) (symName : String) (sym : Iface)
    (rest upd : List (String × Iface)) (hne : symName ≠ "")
    (hmiss : env.GetProcAddress h (pluginpath ++ "." ++ symKey symName) = 0) :
    fillSyms env h pluginpath name cErr ((symName, sym) :: rest) upd =
      (FillResult.failed (symbolFailureMsg name (symKey symName)
          (goStringErr (pluginLookup env h (pluginpath ++ "." ++ symKey symName) cErr).2)),
        [Event.resolve h (pluginpath ++ "." ++ symKey symName)]) := by
  obtain ⟨data⟩ := symName
  cases data with
  | nil => exact absurd rfl hne
  | cons c cs =>
    by_cases hc : c = '.'
    · simp only [symKey, hc, if_true] at hmiss ⊢
      simp [fillSyms, hc, pluginLookup_fst, hmiss]
    · simp only [symKey, hc, if_false] at hmiss ⊢
      simp [fillSyms, hc, pluginLookup_fst, hmiss]

theorem fillSyms_cons_found (env : Env) (h : Nat) (pluginpath name : String)
    (cErr : Option String) (symName : String) (sym : Iface)
    (rest upd : List (String × Iface)) (hne : symName ≠ "")
    (hfound : env.GetProcAddress h (pluginpath ++ "." ++ symKey symName) ≠ 0) :
    fillSyms env h pluginpath name cErr ((symName, sym) :: rest) upd =
      ((fillSyms env h pluginpath name cErr rest
          (mapSet upd (symKey symName)
            (patched symName sym
              (env.GetProcAddress h (pluginpath ++ "." ++ symKey symName))))).1,
        Event.resolve h (pluginpath ++ "." ++ symKey symName) ::
        (fillSyms env h pluginpath name cErr rest
          (mapSet upd (symKey symName)
            (patched symName sym
              (env.GetProcAddress h (pluginpath ++ "." ++ symKey symName))))).2) := by
  obtain ⟨data⟩ := symName
  cases data with
  | nil => exact absurd rfl hne
  | cons c cs =>
    by_cases hc : c = '.'
    · simp only [symKey, hc, if_true] at hfound ⊢
      simp [fillSyms, hc, pluginLookup_fst, hfound, pluginLookup_snd_of_found, patched,
        isCallable]
    · simp only [symKey, hc, if_false] at hfound ⊢
      simp [fillSyms, hc, pluginLookup_fst, hfound, pluginLookup_snd_of_found, patched,
        isCallable]

theorem fillSyms_trace (env : Env) (h : Nat) (pluginpath name : String)
    (cErr : Option String) (syms upd : List (String × Iface)) :
    ∀ e ∈ (fillSyms env h pluginpath name cErr syms upd).2, ∃ n, e = Event.resolve h n := by
  induction syms generalizing upd with
  | nil => simp [fillSyms]
  | cons entry rest ih =>
    obtain ⟨symName, sym⟩ := entry
    intro e he
    by_cases hne : symName = ""
    · rw [fillSyms_cons_panic _ _ _ _ _ _ _ _ _ hne] at he
      simp at he
    · by_cases hg : env.GetProcAddress h (pluginpath ++ "." ++ symKey symName) = 0
      · rw [fillSyms_cons_failed _ _ _ _ _ _ _ _ _ hne hg] at he
        simp only [List.mem_singleton] at he
        exact ⟨_, he⟩
      · rw [fillSyms_cons_found _ _ _ _ _ _ _ _ _ hne hg] at he
        simp only [List.mem_cons] at he
        rcases he with he | he
        · exact ⟨_, he⟩
        · exact ih _ e he

theorem find_eq_mapGet (s : State) (k : String) :
    s.find k = mapGet (s.plugins.getD []) k := by
  unfold State.find
  cases s.plugins <;> simp [mapGet]

theorem extends_refl (s : State) : Extends s s := ⟨rfl, fun _ _ h => h, fun _ _ h => h⟩

theorem extends_trans {s t u : State} (h1 : Extends s t) (h2 : Extends t u) : Extends s u :=
  ⟨h2.1.trans h1.1, fun k p h => h2.2.1 k p (h1.2.1 k p h),
    fun p r h => h2.2.2 p r (h1.2.2 p r h)⟩

theorem reservedState_extends (s : State) (filepath pluginpath err : String) (loaded : Chan)
    (hl : s.locked = false) (hf : s.find filepath = none) :
    Extends s (reservedState s filepath pluginpath err loaded) := by
  refine ⟨by simp [reservedState, hl], ?_, ?_⟩
  · intro k p hk
    have hne : k ≠ filepath := by
      intro h
      rw [h, hf] at hk
      cases hk
    rw [find_eq_mapGet] at hk
    simp only [State.find, reservedState]
    rw [mapGet_mapSet_ne _ _ _ _ hne]
    exact hk
  · intro p r hp
    simp only [State.deref, reservedState] at hp ⊢
    exact get_append_old _ _ _ _ hp

theorem published_extends (s : State) (filepath pluginpath err : String) (loaded : Chan)
    (upd : List (String × Iface)) (hl : s.locked = false) (hf : s.find filepath = none) :
    Extends s ⟨heapUpdate (reservedState s filepath pluginpath err loaded).heap s.heap.length
        (publish upd), (reservedState s filepath pluginpath err loaded).plugins,
        (reservedState s filepath pluginpath err loaded).locked⟩ := by
  have hres := reservedState_extends s filepath pluginpath err loaded hl hf
  refine ⟨hres.1, hres.2.1, ?_⟩
  intro p r hp
  have hlt : p < s.heap.length := by
    by_contra hc
    simp only [State.deref] at hp
    rw [List.getElem?_eq_none (Nat.le_of_not_lt hc)] at hp
    cases hp
  simp only [State.deref]
  rw [heapUpdate_get_ne _ _ _ _ (Nat.ne_of_lt hlt)]
  exact hres.2.2 p r hp

theorem open_extends (env : Env) (s : State) (name : String) :
    Extends s (openPlugin env s name).st := by
  cases hl : s.locked with
  | true => rw [open_parked env s name hl]; exact extends_refl s
  | false =>
    cases hf : s.find (goString name) with
    | some p =>
      cases hd : s.deref p with
      | none => rw [open_hit_fault env s name p hl hf hd]; exact extends_refl s
      | some r =>
        by_cases he : r.err = ""
        · rw [open_hit_wait env s name p r hl hf hd he]; exact extends_refl s
        · rw [open_hit_failed env s name p r hl hf hd he]; exact extends_refl s
    | none =>
      by_cases hm : env.LoadLibrary name = 0
      · rw [open_map_failed env s name hl hf hm]; exact extends_refl s
      · by_cases he : env.lastmoduleinit.2.2 = ""
        · rw [open_loading env s name hl hf hm he]
          rcases loadBody_cases env
              (reservedState s (goString name) env.lastmoduleinit.1 "" Chan.unclosed)
              s.heap.length (env.LoadLibrary name) env.lastmoduleinit.1
              env.lastmoduleinit.2.1 (trimSo name) (pluginOpen env name none).2 with
            ⟨upd, -, hb⟩ | ⟨msg, -, hb⟩ | ⟨-, hb⟩
          · rw [hb]
            exact published_extends s _ _ _ _ upd hl hf
          · rw [hb]
            exact reservedState_extends s _ _ _ _ hl hf
          · rw [hb]
            exact reservedState_extends s _ _ _ _ hl hf
        · rw [open_init_failed env s name hl hf hm he]
          exact reservedState_extends s _ _ _ _ hl hf

/-! ## Calls in sequence -/

theorem runOpens_extends (s : State) (later : List (Env × String)) :
    Extends s (runOpens s later) := by
  induction later generalizing s with
  | nil => exact extends_refl s
  | cons c rest ih =>
    obtain ⟨env, name⟩ := c
    exact extends_trans (open_extends env s name) (ih _)

theorem settled_of_extends {s t : State} {filepath : String} {p : Nat}
    (h : Settled s filepath p) (hext : Extends s t) : Settled t filepath p := by
  obtain ⟨hl, hf, r, hd, he, hc⟩ := h
  exact ⟨hext.1.trans hl, hext.2.1 _ _ hf, r, hext.2.2 _ _ hd, he, hc⟩

theorem failedAt_of_extends {s t : State} {filepath reason : String}
    (h : FailedAt s filepath reason) (hext : Extends s t) : FailedAt t filepath reason := by
  obtain ⟨hl, p, r, hf, hd, he⟩ := h
  exact ⟨hext.1.trans hl, p, r, hext.2.1 _ _ hf, hext.2.2 _ _ hd, he⟩

theorem open_of_settled (env : Env) (s : State) (name : String) (p : Nat)
    (h : Settled s (goString name) p) :
    openPlugin env s name =
      ⟨Outcome.ok p, s,
        [Event.lock, Event.regRead (goString name), Event.unlock, Event.recv p]⟩ := by
  obtain ⟨hl, hf, r, hd, he, hc⟩ := h
  rw [open_hit_wait env s name p r hl hf hd he]
  simp [awaitLoaded, hd, hc]

theorem open_of_failedAt (env : Env) (s : State) (name reason : String)
    (h : FailedAt s (goString name) reason) (hne : reason ≠ "") :
    openPlugin env s name =
      ⟨Outcome.error (previousFailureMsg name reason), s,
        [Event.lock, Event.regRead (goString name), Event.unlock]⟩ := by
  obtain ⟨hl, p, r, hf, hd, he⟩ := h
  subst he
  exact open_hit_failed env s name p r hl hf hd hne

theorem settled_of_ok (env : Env) (s : State) (name : String) (p : Nat)
    (hok : (openPlugin env s name).out = Outcome.ok p) :
    Settled (openPlugin env s name).st (goString name) p := by
  cases hl : s.locked with
  | true => rw [open_parked env s name hl] at hok; cases hok
  | false =>
    cases hf : s.find (goString name) with
    | some q =>
      cases hd : s.deref q with
      | none => rw [open_hit_fault env s name q hl hf hd] at hok; cases hok
      | some r =>
        by_cases he : r.err = ""
        · rw [open_hit_wait env s name q r hl hf hd he] at hok ⊢
          simp only [awaitLoaded, hd] at hok
          cases hc : r.loaded with
          | closed =>
            simp only [hc] at hok
            cases hok
            exact ⟨hl, hf, r, hd, he, hc⟩
          | nil => simp [hc] at hok
          | unclosed => simp [hc] at hok
        · rw [open_hit_failed env s name q r hl hf hd he] at hok; cases hok
    | none =>
      by_cases hm : env.LoadLibrary name = 0
      · rw [open_map_failed env s name hl hf hm] at hok; cases hok
      · by_cases he : env.lastmoduleinit.2.2 = ""
        · rw [open_loading env s name hl hf hm he] at hok ⊢
          rcases loadBody_cases env
              (reservedState s (goString name) env.lastmoduleinit.1 "" Chan.unclosed)
              s.heap.length (env.LoadLibrary name) env.lastmoduleinit.1
              env.lastmoduleinit.2.1 (trimSo name) (pluginOpen env name none).2 with
            ⟨upd, -, hb⟩ | ⟨msg, -, hb⟩ | ⟨-, hb⟩
          · rw [hb] at hok ⊢
            cases hok
            refine ⟨rfl, ?_, publish upd ⟨env.lastmoduleinit.1, "", Chan.unclosed, none⟩, ?_,
              rfl, rfl⟩
            · simp only [State.find, reservedState]
              exact mapGet_mapSet_self _ _ _
            · simp only [State.deref, reservedState]
              rw [heapUpdate_append_new]
              exact get_append_new _ _
          · rw [hb] at hok; cases hok
          · rw [hb] at hok; cases hok
        · rw [open_init_failed env s name hl hf hm he] at hok; cases hok

/-! ## Error texts -/

theorem openFailureMsg_contains (name err : String) :
    containsText (openFailureMsg name err) err := by
  unfold containsText openFailureMsg
  simp only [String.data_append]
  exact List.IsSuffix.isInfix (List.suffix_append _ _)

theorem previousFailureMsg_contains (name err : String) :
    containsText (previousFailureMsg name err) err := by
  unfold containsText previousFailureMsg
  simp only [String.data_append]
  exact ⟨_, _, rfl⟩

/-! ## The claims -/

/-- C1. Once `open(name)` has returned a handle, every later `open(name)`, after
any further calls of `open` on any names, returns the same handle, without
error; its trace is the lock, the registry read, the unlock and the receive
from the closed channel, so it makes no native map, module-init, initializer
or export-resolution call; and it leaves the state as it found it. -/
theorem open_idempotent_after_success (env : Env) (s : State) (name : String) (p : Nat)
    (hok : (openPlugin env s name).out = Outcome.ok p)
    (later : List (Env × String)) (env2 : Env) :
    openPlugin env2 (runOpens (openPlugin env s name).st later) name =
        ⟨Outcome.ok p, runOpens (openPlugin env s name).st later,
          [Event.lock, Event.regRead (goString name), Event.unlock, Event.recv p]⟩ ∧
      ∀ e ∈ (openPlugin env2 (runOpens (openPlugin env s name).st later) name).trace,
        isNativeCall e = false := by
  have hset := settled_of_extends (settled_of_ok env s name p hok)
    (runOpens_extends (openPlugin env s name).st later)
  have heq := open_of_settled env2 _ name p hset
  refine ⟨heq, ?_⟩
  rw [heq]
  intro e he
  simp only [List.mem_cons, List.mem_singleton, List.not_mem_nil, or_false] at he
  rcases he with he | he | he | he <;> subst he <;> rfl

/-- C1, on the artifact "sample": opened from the initial state, then "broken"
is tried, then "sample" is opened again. -/
theorem open_idempotent_after_success_witness :
    (openPlugin sampleEnv State.init "sample").out = Outcome.ok 0 ∧
      (openPlugin sampleEnv
          (runOpens (openPlugin sampleEnv State.init "sample").st [(brokenEnv, "broken")])
          "sample" =
        ⟨Outcome.ok 0,
          runOpens (openPlugin sampleEnv State.init "sample").st [(brokenEnv, "broken")],
          [Event.lock, Event.regRead (goString "sample"), Event.unlock, Event.recv 0]⟩ ∧
      ∀ e ∈ (openPlugin sampleEnv
          (runOpens (openPlugin sampleEnv State.init "sample").st [(brokenEnv, "broken")])
          "sample").trace, isNativeCall e = false) :=
  ⟨by decide,
    open_idempotent_after_success sampleEnv State.init "sample" 0 (by decide)
      [(brokenEnv, "broken")] sampleEnv⟩

/-- C2, as stated, fails on artifact "broken", whose native map call fails
with "access denied": after the first `open` the registry holds no record for
"broken", and the second `open` calls the native map again and returns the
same text without a previous-failure marker. -/
theorem nativeMap_failure_cached_counterexample :
    pluginOpen brokenEnv "broken" none = (0, some "access denied") ∧
      (openPlugin brokenEnv State.init "broken").out =
        Outcome.error "plugin.Open(\"broken\"): access denied" ∧
      (openPlugin brokenEnv State.init "broken").st.find (goString "broken") = none ∧
      Event.nativeMap "broken" ∈
        (openPlugin brokenEnv (openPlugin brokenEnv State.init "broken").st "broken").trace ∧
      (openPlugin brokenEnv (openPlugin brokenEnv State.init "broken").st "broken").out =
        Outcome.error "plugin.Open(\"broken\"): access denied" ∧
      ¬ containsText "plugin.Open(\"broken\"): access denied" "(previous failure)" := by
  decide

/-- C2, amended. When no record is registered for the identity of `name` and
the native map call fails with text `E`, `open(name)` fails with the text
`plugin.Open("<name>"): ` followed by `E`, which contains `E`; it stores no
record and leaves the state as it was; and a second `open(name)`, whatever
the world answers then, calls the native map again, and when that call fails
too, returns its text in the same form, with no previous-failure marker. -/
theorem nativeMap_failure_retried (env : Env) (s : State) (name E : String)
    (hl : s.locked = false) (hf : s.find (goString name) = none)
    (hfail : (pluginOpen env name none).1 = 0)
    (hE : goStringErr (pluginOpen env name none).2 = E) (env2 : Env) :
    openPlugin env s name =
        ⟨Outcome.error (openFailureMsg name E), s,
          [Event.lock, Event.regRead (goString name), Event.nativeMap name, Event.unlock]⟩ ∧
      containsText (openFailureMsg name E) E ∧
      (openPlugin env s name).st.find (goString name) = none ∧
      Event.nativeMap name ∈ (openPlugin env2 (openPlugin env s name).st name).trace ∧
      ((pluginOpen env2 name none).1 = 0 →
        (openPlugin env2 (openPlugin env s name).st name).out =
          Outcome.error (openFailureMsg name (goStringErr (pluginOpen env2 name none).2))) := by
  rw [pluginOpen_fst] at hfail
  have h1 := open_map_failed env s name hl hf hfail
  rw [hE] at h1
  refine ⟨h1, openFailureMsg_contains name E, ?_, ?_, ?_⟩
  · rw [h1]; exact hf
  · rw [h1]
    by_cases hm : env2.LoadLibrary name = 0
    · rw [open_map_failed env2 s name hl hf hm]; simp
    · by_cases he : env2.lastmoduleinit.2.2 = ""
      · rw [open_loading env2 s name hl hf hm he]; simp [reserveTrace]
      · rw [open_init_failed env2 s name hl hf hm he]; simp [reserveTrace]
  · intro hfail2
    rw [pluginOpen_fst] at hfail2
    rw [h1, open_map_failed env2 s name hl hf hfail2]

/-- C2, amended, on artifact "broken". -/
theorem nativeMap_failure_retried_witness :
    openPlugin brokenEnv State.init "broken" =
        ⟨Outcome.error (openFailureMsg "broken" "access denied"), State.init,
          [Event.lock, Event.regRead (goString "broken"), Event.nativeMap "broken",
            Event.unlock]⟩ ∧
      containsText (openFailureMsg "broken" "access denied") "access denied" ∧
      (openPlugin brokenEnv State.init "broken").st.find (goString "broken") = none ∧
      Event.nativeMap "broken" ∈
        (openPlugin brokenEnv (openPlugin brokenEnv State.init "broken").st "broken").trace ∧
      ((pluginOpen brokenEnv "broken" none).1 = 0 →
        (openPlugin brokenEnv (openPlugin brokenEnv State.init "broken").st "broken").out =
          Outcome.error
            (openFailureMsg "broken" (goStringErr (pluginOpen brokenEnv "broken" none).2))) :=
  nativeMap_failure_retried brokenEnv State.init "broken" "access denied"
    (by decide) (by decide) (by decide) (by decide) brokenEnv

/-- C3. When `open(name)` finds no record for its identity, maps the artifact,
and the module-init step reports the non-empty text `R`, then `open` fails
with the text `plugin.Open("<name without .so>"): ` followed by `R`, which
contains `R`; a record with failure reason `R` is registered for the identity;
and every later `open(name)`, after any further calls of `open`, fails with the
text `plugin.Open("<name>"): ` followed by `R` and ` (previous failure)`, with
no native map, module-init, initializer or resolve call, leaving the state as
it found it. -/
theorem moduleInit_failure_cached (env : Env) (s : State) (name R : String)
    (hl : s.locked = false) (hf : s.find (goString name) = none)
    (hmap : (pluginOpen env name none).1 ≠ 0)
    (hR : env.lastmoduleinit.2.2 = R) (hne : R ≠ "")
    (later : List (Env × String)) (env2 : Env) :
    (openPlugin env s name).out = Outcome.error (openFailureMsg (trimSo name) R) ∧
      containsText (openFailureMsg (trimSo name) R) R ∧
      FailedAt (openPlugin env s name).st (goString name) R ∧
      openPlugin env2 (runOpens (openPlugin env s name).st later) name =
        ⟨Outcome.error (previousFailureMsg name R),
          runOpens (openPlugin env s name).st later,
          [Event.lock, Event.regRead (goString name), Event.unlock]⟩ ∧
      (∀ e ∈ (openPlugin env2 (runOpens (openPlugin env s name).st later) name).trace,
        isNativeCall e = false) := by
  rw [pluginOpen_fst] at hmap
  subst hR
  have h1 := open_init_failed env s name hl hf hmap hne
  have hfailed : FailedAt (openPlugin env s name).st (goString name)
      env.lastmoduleinit.2.2 := by
    rw [h1]
    refine ⟨rfl, s.heap.length, ⟨env.lastmoduleinit.1, env.lastmoduleinit.2.2, Chan.nil, none⟩,
      ?_, ?_, rfl⟩
    · simp only [State.find, reservedState]
      exact mapGet_mapSet_self _ _ _
    · simp only [State.deref, reservedState]
      exact get_append_new _ _
  have h2 := open_of_failedAt env2 _ name _
    (failedAt_of_extends hfailed (runOpens_extends (openPlugin env s name).st later)) hne
  refine ⟨by rw [h1], openFailureMsg_contains _ _, hfailed, h2, ?_⟩
  rw [h2]
  intro e he
  simp only [List.mem_cons, List.mem_singleton, List.not_mem_nil, or_false] at he
  rcases he with he | he | he <;> subst he <;> rfl

/-- C3, on an artifact "x.so" whose module-init step reports "dup": the later
`open` comes after a load of "sample". -/
theorem moduleInit_failure_cached_witness :
    (openPlugin (badInitEnv "dup") State.init "x.so").out =
        Outcome.error (openFailureMsg (trimSo "x.so") "dup") ∧
      containsText (openFailureMsg (trimSo "x.so") "dup") "dup" ∧
      FailedAt (openPlugin (badInitEnv "dup") State.init "x.so").st (goString "x.so") "dup" ∧
      openPlugin sampleEnv
          (runOpens (openPlugin (badInitEnv "dup") State.init "x.so").st
            [(sampleEnv, "sample")]) "x.so" =
        ⟨Outcome.error (previousFailureMsg "x.so" "dup"),
          runOpens (openPlugin (badInitEnv "dup") State.init "x.so").st
            [(sampleEnv, "sample")],
          [Event.lock, Event.regRead (goString "x.so"), Event.unlock]⟩ ∧
      (∀ e ∈ (openPlugin sampleEnv
          (runOpens (openPlugin (badInitEnv "dup") State.init "x.so").st
            [(sampleEnv, "sample")]) "x.so").trace, isNativeCall e = false) :=
  moduleInit_failure_cached (badInitEnv "dup") State.init "x.so" "dup"
    (by decide) (by decide) (by decide) (by decide) (by decide)
    [(sampleEnv, "sample")] sampleEnv

/-- C4, the code at the failing input: the artifact maps, declares `A` and
`B`, and `B` does not resolve. `open` returns the error naming `B`, but the
record registered for the identity keeps an empty failure reason and an
unclosed `loaded` channel, and the next `open` of the same name stays parked
on that channel. -/
theorem symbol_failure_leaves_record_loading :
    (openPlugin missingSymEnv State.init "m.so").out =
        Outcome.error
          "plugin.Open(\"m\"): could not find symbol B: The specified procedure could not be found." ∧
      (openPlugin missingSymEnv State.init "m.so").st.find (goString "m.so") = some 0 ∧
      (openPlugin missingSymEnv State.init "m.so").st.deref 0 =
        some ⟨"m", "", Chan.unclosed, none⟩ ∧
      (openPlugin missingSymEnv (openPlugin missingSymEnv State.init "m.so").st "m.so").out =
        Outcome.blocked := by
  decide

theorem notFoundMsg_contains_name (symName pluginpath : String) :
    containsText (notFoundMsg symName pluginpath) symName := by
  unfold containsText notFoundMsg
  simp only [String.data_append]
  exact ⟨"plugin: symbol ".data, " not found in plugin ".data ++ pluginpath.data, by simp⟩

theorem notFoundMsg_contains_path (symName pluginpath : String) :
    containsText (notFoundMsg symName pluginpath) pluginpath := by
  unfold containsText notFoundMsg
  simp only [String.data_append]
  exact List.IsSuffix.isInfix (List.suffix_append _ _)

/-- C5. For a handle `p` with record `r` and any name `n`: `lookup` returns the
value stored under `n` in the symbol table, without error, when there is one
and it is not the nil interface; otherwise it returns the not-found error,
whose text contains `n` and the plugin path; either way the call returns
(no panic), leaves the state as it was, and its trace is empty. -/
theorem lookup_total_pure_read (st : State) (p : Nat) (r : Plugin) (n : String)
    (hp : st.deref p = some r) :
    (∀ v, storedSym r n = some v → v.typ ≠ 0 →
        lookupCall st p n = (some (Except.ok v), st, [])) ∧
      ((∀ v, storedSym r n = some v → v.typ = 0) →
        lookupCall st p n = (some (Except.error (notFoundMsg n r.pluginpath)), st, [])) ∧
      containsText (notFoundMsg n r.pluginpath) n ∧
      containsText (notFoundMsg n r.pluginpath) r.pluginpath := by
  refine ⟨?_, ?_, notFoundMsg_contains_name _ _, notFoundMsg_contains_path _ _⟩
  · intro v hv hne
    have hget : symsGet r n = v := by
      unfold storedSym at hv
      unfold symsGet
      cases hs : r.syms with
      | none => rw [hs] at hv; cases hv
      | some m =>
        rw [hs] at hv
        simp only at hv ⊢
        rw [hv]
        rfl
    simp [lookupCall, hp, lookup, hget, hne]
  · intro hv
    have hget : (symsGet r n).typ = 0 := by
      unfold storedSym at hv
      unfold symsGet
      cases hs : r.syms with
      | none => rfl
      | some m =>
        rw [hs] at hv
        simp only at hv ⊢
        cases hm : mapGet m n with
        | none => rfl
        | some v => exact hv v hm
    simp [lookupCall, hp, lookup, hget]

/-- C5, on the handle that `open("sample")` returns: `Version` is found,
`Missing` is not. -/
theorem lookup_total_pure_read_witness :
    (openPlugin sampleEnv State.init "sample").out = Outcome.ok 0 ∧
      lookupCall (openPlugin sampleEnv State.init "sample").st 0 "Version" =
        (some (Except.ok ⟨11, Word.addr 100⟩),
          (openPlugin sampleEnv State.init "sample").st, []) ∧
      lookupCall (openPlugin sampleEnv State.init "sample").st 0 "Missing" =
        (some (Except.error "plugin: symbol Missing not found in plugin sample"),
          (openPlugin sampleEnv State.init "sample").st, []) :=
  ⟨by decide,
    (lookup_total_pure_read (openPlugin sampleEnv State.init "sample").st 0
      ⟨"sample", "", Chan.closed,
        some [("Version", ⟨11, Word.addr 100⟩), ("Run", ⟨12, Word.ref 200⟩)]⟩
      "Version" (by decide)).1 ⟨11, Word.addr 100⟩ (by decide) (by decide),
    (lookup_total_pure_read (openPlugin sampleEnv State.init "sample").st 0
      ⟨"sample", "", Chan.closed,
        some [("Version", ⟨11, Word.addr 100⟩), ("Run", ⟨12, Word.ref 200⟩)]⟩
      "Missing" (by decide)).2.1 (by decide)⟩

/-! ## The symbol loop when every declared symbol resolves -/

theorem mem_mapKeys_mapSet {α : Type} (m : List (String × α)) (key k : String) (v : α) :
    k ∈ mapKeys (mapSet m key v) ↔ k = key ∨ k ∈ mapKeys m := by
  induction m with
  | nil => simp [mapSet, mapKeys]
  | cons e rest ih =>
    obtain ⟨k0, x⟩ := e
    by_cases h : k0 = key
    · subst h
      simp [mapSet, mapKeys]
    · simp only [mapSet, h, if_false]
      simp only [mapKeys, List.map_cons, List.mem_cons] at ih ⊢
      rw [ih]
      tauto

theorem fillSyms_all_found (env : Env) (h : Nat) (pluginpath name : String)
    (cErr : Option String) (syms upd : List (String × Iface))
    (hnames : ∀ e ∈ syms, e.1 ≠ "")
    (hres : ∀ e ∈ syms, env.GetProcAddress h (pluginpath ++ "." ++ symKey e.1) ≠ 0) :
    ∃ tbl, fillSyms env h pluginpath name cErr syms upd =
        (FillResult.filled tbl,
          syms.map (fun e => Event.resolve h (pluginpath ++ "." ++ symKey e.1))) ∧
      (∀ k, k ∈ mapKeys tbl ↔ k ∈ mapKeys upd ∨ ∃ e ∈ syms, symKey e.1 = k) ∧
      ((mapKeys upd ++ syms.map (fun e => symKey e.1)).Nodup →
        tbl = upd ++ syms.map (fun e => (symKey e.1,
          patched e.1 e.2 (env.GetProcAddress h (pluginpath ++ "." ++ symKey e.1))))) := by
  induction syms generalizing upd with
  | nil => exact ⟨upd, by simp [fillSyms], by simp, by simp⟩
  | cons entry rest ih =>
    obtain ⟨symName, sym⟩ := entry
    have hne : symName ≠ "" := hnames (symName, sym) (List.mem_cons_self _ _)
    have hfound := hres (symName, sym) (List.mem_cons_self _ _)
    obtain ⟨tbl, heq, hkeys, hval⟩ := ih
      (mapSet upd (symKey symName)
        (patched symName sym (env.GetProcAddress h (pluginpath ++ "." ++ symKey symName))))
      (fun e he => hnames e (List.mem_cons_of_mem _ he))
      (fun e he => hres e (List.mem_cons_of_mem _ he))
    refine ⟨tbl, ?_, ?_, ?_⟩
    · rw [fillSyms_cons_found _ _ _ _ _ _ _ _ _ hne hfound, heq]
      simp
    · intro k
      rw [hkeys k, mem_mapKeys_mapSet]
      constructor
      · rintro ((hk | hk) | ⟨e, he, hk⟩)
        · exact Or.inr ⟨(symName, sym), List.mem_cons_self _ _, hk.symm⟩
        · exact Or.inl hk
        · exact Or.inr ⟨e, List.mem_cons_of_mem _ he, hk⟩
      · rintro (hk | ⟨e, he, hk⟩)
        · exact Or.inl (Or.inr hk)
        · rcases List.mem_cons.mp he with he | he
          · subst he
            exact Or.inl (Or.inl hk.symm)
          · exact Or.inr ⟨e, he, hk⟩
    · intro hnd
      simp only [List.map_cons] at hnd
      have hfresh : symKey symName ∉ mapKeys upd := by
        intro hmem
        have := List.nodup_append.mp hnd
        exact this.2.2 hmem (List.mem_cons_self _ _)
      have hset := mapSet_fresh upd (symKey symName)
        (patched symName sym (env.GetProcAddress h (pluginpath ++ "." ++ symKey symName)))
        hfresh
      rw [hset] at hval
      have hnd2 : (mapKeys (upd ++ [(symKey symName,
          patched symName sym
            (env.GetProcAddress h (pluginpath ++ "." ++ symKey symName)))]) ++
          rest.map (fun e => symKey e.1)).Nodup := by
        simp only [mapKeys, List.map_append, List.map_cons, List.map_nil,
          List.append_assoc, List.singleton_append] at hnd ⊢
        exact hnd
      rw [hval hnd2]
      simp

theorem mapGet_map_of_nodup {α β : Type} (key : α → String) (val : α → β) (l : List α)
    (hnd : (l.map key).Nodup) (e : α) (he : e ∈ l) :
    mapGet (l.map (fun x => (key x, val x))) (key e) = some (val e) := by
  induction l with
  | nil => cases he
  | cons x rest ih =>
    simp only [List.map_cons, List.nodup_cons] at hnd
    by_cases hk : key x = key e
    · have hex : e = x := by
        rcases List.mem_cons.mp he with h | h
        · exact h
        · exact absurd (hk ▸ List.mem_map_of_mem key h) hnd.1
      subst hex
      simp [mapGet]
    · have hmem : e ∈ rest := by
        rcases List.mem_cons.mp he with h | h
        · exact absurd (by rw [h]) hk
        · exact h
      simp only [List.map_cons, mapGet, hk, if_false]
      exact ih hnd.2 hmem

/-- C6, as stated, fails on artifact "clash", which declares the data symbol
`Run` and the callable `.Run`, both names non-empty and both resolving, at
200: the load succeeds, and the published table holds under `Run` the
callable form (type word 2 and a pointer to the address), not the type word 1
and the address itself that the data symbol `Run` should store. -/
theorem declared_table_published_counterexample :
    (∀ e ∈ clashEnv.lastmoduleinit.2.1, e.1 ≠ "") ∧
      (∀ e ∈ clashEnv.lastmoduleinit.2.1,
        clashEnv.GetProcAddress (clashEnv.LoadLibrary "clash")
          (clashEnv.lastmoduleinit.1 ++ "." ++ symKey e.1) ≠ 0) ∧
      (openPlugin clashEnv State.init "clash").out = Outcome.ok 0 ∧
      ("Run", (⟨1, Word.addr 0⟩ : Iface)) ∈ clashEnv.lastmoduleinit.2.1 ∧
      isCallable "Run" = false ∧
      ((openPlugin clashEnv State.init "clash").st.deref 0).bind
          (fun r => storedSym r (symKey "Run")) = some ⟨2, Word.ref 200⟩ ∧
      ((openPlugin clashEnv State.init "clash").st.deref 0).bind
          (fun r => storedSym r (symKey "Run")) ≠
        some ⟨1, Word.addr (clashEnv.GetProcAddress (clashEnv.LoadLibrary "clash")
          (clashEnv.lastmoduleinit.1 ++ "." ++ symKey "Run"))⟩ := by
  decide

/-- C6, amended. On a fresh load (no record for the identity, the artifact
maps at `h`, the module-init step reports path `M`, symbols `S` and no error)
in which every declared name is non-empty and resolves: `open` returns the new
handle; after the initializer step the trace is exactly one resolution per
declared name, in order, under `M + "." + n` with `n` the name without its
leading `.`, followed by the close of `loaded`; the published table has
exactly the keys `n`; and when no two declared names give the same `n`, the
table holds for every declared symbol its type word and the resolved address,
directly for a data symbol and behind one pointer for a callable. -/
theorem fresh_load_publishes_declared_table (env : Env) (s : State) (name : String)
    (hl : s.locked = false) (hf : s.find (goString name) = none)
    (hmap : env.LoadLibrary name ≠ 0) (hinit : env.lastmoduleinit.2.2 = "")
    (hnames : ∀ e ∈ env.lastmoduleinit.2.1, e.1 ≠ "")
    (hres : ∀ e ∈ env.lastmoduleinit.2.1,
      env.GetProcAddress (env.LoadLibrary name)
        (env.lastmoduleinit.1 ++ "." ++ symKey e.1) ≠ 0) :
    (openPlugin env s name).out = Outcome.ok s.heap.length ∧
      (openPlugin env s name).trace =
        reserveTrace s name ++ initTrace env (env.LoadLibrary name) env.lastmoduleinit.1 ++
          env.lastmoduleinit.2.1.map (fun e =>
            Event.resolve (env.LoadLibrary name) (env.lastmoduleinit.1 ++ "." ++ symKey e.1)) ++
          [Event.close s.heap.length] ∧
      ∃ tbl, (openPlugin env s name).st.deref s.heap.length =
          some ⟨env.lastmoduleinit.1, "", Chan.closed, some tbl⟩ ∧
        (∀ k, k ∈ mapKeys tbl ↔ ∃ e ∈ env.lastmoduleinit.2.1, symKey e.1 = k) ∧
        ((env.lastmoduleinit.2.1.map (fun e => symKey e.1)).Nodup →
          ∀ e ∈ env.lastmoduleinit.2.1,
            mapGet tbl (symKey e.1) =
              some ⟨e.2.typ,
                if isCallable e.1 then
                  Word.ref (env.GetProcAddress (env.LoadLibrary name)
                    (env.lastmoduleinit.1 ++ "." ++ symKey e.1))
                else
                  Word.addr (env.GetProcAddress (env.LoadLibrary name)
                    (env.lastmoduleinit.1 ++ "." ++ symKey e.1))⟩) := by
  obtain ⟨tbl, heq, hkeys, hval⟩ := fillSyms_all_found env (env.LoadLibrary name)
    env.lastmoduleinit.1 (trimSo name)
    (pluginLookup env (env.LoadLibrary name) (env.lastmoduleinit.1 ++ ".init")
      (pluginOpen env name none).2).2
    env.lastmoduleinit.2.1 [] hnames hres
  have hopen := open_loading env s name hl hf hmap hinit
  rcases loadBody_cases env
      (reservedState s (goString name) env.lastmoduleinit.1 "" Chan.unclosed)
      s.heap.length (env.LoadLibrary name) env.lastmoduleinit.1
      env.lastmoduleinit.2.1 (trimSo name) (pluginOpen env name none).2 with
    ⟨upd, hu, hb⟩ | ⟨msg, hu, -⟩ | ⟨hu, -⟩
  · rw [heq] at hu hb
    cases hu
    rw [hb] at hopen
    rw [hopen]
    refine ⟨rfl, by simp, tbl, ?_, ?_, ?_⟩
    · simp only [State.deref, reservedState]
      rw [heapUpdate_append_new]
      exact get_append_new _ _
    · intro k
      rw [hkeys k]
      simp [mapKeys]
    · intro hnd e he
      rw [hval (by simpa [mapKeys] using hnd)]
      simp only [List.nil_append]
      exact mapGet_map_of_nodup (fun e : String × Iface => symKey e.1)
        (fun e => patched e.1 e.2 (env.GetProcAddress (env.LoadLibrary name)
          (env.lastmoduleinit.1 ++ "." ++ symKey e.1)))
        env.lastmoduleinit.2.1 hnd e he
  · rw [heq] at hu; cases hu
  · rw [heq] at hu; cases hu

/-- C6, amended, on artifact "sample" with its data symbol `Version` and its
callable `Run`. -/
theorem fresh_load_publishes_declared_table_witness :
    (sampleEnv.lastmoduleinit.2.1.map (fun e => symKey e.1)).Nodup ∧
    (openPlugin sampleEnv State.init "sample").out = Outcome.ok State.init.heap.length ∧
      (openPlugin sampleEnv State.init "sample").trace =
        reserveTrace State.init "sample" ++
          initTrace sampleEnv (sampleEnv.LoadLibrary "sample") sampleEnv.lastmoduleinit.1 ++
          sampleEnv.lastmoduleinit.2.1.map (fun e =>
            Event.resolve (sampleEnv.LoadLibrary "sample")
              (sampleEnv.lastmoduleinit.1 ++ "." ++ symKey e.1)) ++
          [Event.close State.init.heap.length] ∧
      ∃ tbl, (openPlugin sampleEnv State.init "sample").st.deref State.init.heap.length =
          some ⟨sampleEnv.lastmoduleinit.1, "", Chan.closed, some tbl⟩ ∧
        (∀ k, k ∈ mapKeys tbl ↔ ∃ e ∈ sampleEnv.lastmoduleinit.2.1, symKey e.1 = k) ∧
        ((sampleEnv.lastmoduleinit.2.1.map (fun e => symKey e.1)).Nodup →
          ∀ e ∈ sampleEnv.lastmoduleinit.2.1,
            mapGet tbl (symKey e.1) =
              some ⟨e.2.typ,
                if isCallable e.1 then
                  Word.ref (sampleEnv.GetProcAddress (sampleEnv.LoadLibrary "sample")
                    (sampleEnv.lastmoduleinit.1 ++ "." ++ symKey e.1))
                else
                  Word.addr (sampleEnv.GetProcAddress (sampleEnv.LoadLibrary "sample")
                    (sampleEnv.lastmoduleinit.1 ++ "." ++ symKey e.1))⟩) :=
  ⟨by decide,
    fresh_load_publishes_declared_table sampleEnv State.init "sample"
      (by decide) (by decide) (by decide) (by decide) (by decide) (by decide)⟩

/-! ## The trace of the load body -/

theorem initTrace_mem (env : Env) (h : Nat) (pluginpath : String) :
    ∀ e ∈ initTrace env h pluginpath,
      e = Event.resolve h (pluginpath ++ ".init") ∨
        e = Event.initCall (env.GetProcAddress h (pluginpath ++ ".init")) := by
  intro e he
  unfold initTrace at he
  split at he
  · simp only [List.mem_cons, List.mem_singleton, List.not_mem_nil, or_false] at he
    exact he
  · simp only [List.mem_singleton] at he
    exact Or.inl he

theorem loadBody_trace (env : Env) (s : State) (p h : Nat) (pluginpath : String)
    (syms : List (String × Iface)) (name : String) (cErr : Option String) :
    ∃ tail, (loadBody env s p h pluginpath syms name cErr).trace =
        initTrace env h pluginpath ++ tail ∧
      ∀ e ∈ tail, (∃ n, e = Event.resolve h n) ∨ e = Event.close p := by
  rcases loadBody_cases env s p h pluginpath syms name cErr with
    ⟨upd, -, hb⟩ | ⟨msg, -, hb⟩ | ⟨-, hb⟩
  · refine ⟨(fillSyms env h pluginpath name
        (pluginLookup env h (pluginpath ++ ".init") cErr).2 syms []).2 ++ [Event.close p],
      by rw [hb, List.append_assoc], ?_⟩
    intro e he
    rcases List.mem_append.mp he with he | he
    · exact Or.inl (fillSyms_trace _ _ _ _ _ _ _ e he)
    · exact Or.inr (List.mem_singleton.mp he)
  · exact ⟨_, by rw [hb], fun e he => Or.inl (fillSyms_trace _ _ _ _ _ _ _ e he)⟩
  · exact ⟨_, by rw [hb], fun e he => Or.inl (fillSyms_trace _ _ _ _ _ _ _ e he)⟩

theorem fillSyms_failed (env : Env) (h : Nat) (pluginpath name : String)
    (cErr : Option String) (syms upd : List (String × Iface)) (msg : String)
    (hfail : (fillSyms env h pluginpath name cErr syms upd).1 = FillResult.failed msg) :
    ∃ e ∈ syms, ∃ err, env.GetProcAddress h (pluginpath ++ "." ++ symKey e.1) = 0 ∧
      msg = symbolFailureMsg name (symKey e.1) err := by
  induction syms generalizing upd with
  | nil => simp [fillSyms] at hfail
  | cons entry rest ih =>
    obtain ⟨symName, sym⟩ := entry
    by_cases hne : symName = ""
    · rw [fillSyms_cons_panic _ _ _ _ _ _ _ _ _ hne] at hfail
      cases hfail
    · by_cases hg : env.GetProcAddress h (pluginpath ++ "." ++ symKey symName) = 0
      · rw [fillSyms_cons_failed _ _ _ _ _ _ _ _ _ hne hg] at hfail
        simp only [FillResult.failed.injEq] at hfail
        exact ⟨(symName, sym), List.mem_cons_self _ _, _, hg, hfail.symm⟩
      · rw [fillSyms_cons_found _ _ _ _ _ _ _ _ _ hne hg] at hfail
        obtain ⟨e, he, err, h0, hmsg⟩ := ih _ hfail
        exact ⟨e, List.mem_cons_of_mem _ he, err, h0, hmsg⟩

/-- C7. On a fresh load (no record for the identity, the artifact maps at
`h`) with module path `M`: if the module-init step reports an error text, the
trace has no resolution and no initializer call; otherwise the trace is the
locked part, then the resolution of `M + ".init"`, then, exactly when that
resolution gave an address, one call of the initializer at that address, then
a tail without any initializer call, which holds every resolution of an
exported symbol; and the call ends with the handle, or with the error that a
declared symbol could not be found, or with the panic on an empty declared
name, never with an error about the initializer. -/
theorem initializer_protocol (env : Env) (s : State) (name : String)
    (hl : s.locked = false) (hf : s.find (goString name) = none)
    (hmap : env.LoadLibrary name ≠ 0) :
    (env.lastmoduleinit.2.2 ≠ "" →
        ∀ e ∈ (openPlugin env s name).trace, isResolve e = false ∧ isInitCall e = false) ∧
      (env.lastmoduleinit.2.2 = "" →
        (∃ tail, (openPlugin env s name).trace =
            reserveTrace s name ++
              [Event.resolve (env.LoadLibrary name) (env.lastmoduleinit.1 ++ ".init")] ++
              (if env.GetProcAddress (env.LoadLibrary name) (env.lastmoduleinit.1 ++ ".init") ≠ 0
                then [Event.initCall (env.GetProcAddress (env.LoadLibrary name)
                  (env.lastmoduleinit.1 ++ ".init"))]
                else []) ++ tail ∧
            (∀ e ∈ reserveTrace s name, isResolve e = false ∧ isInitCall e = false) ∧
            ∀ e ∈ tail, isInitCall e = false) ∧
          ((openPlugin env s name).out = Outcome.ok s.heap.length ∨
            (openPlugin env s name).out = Outcome.panicked ∨
            ∃ e ∈ env.lastmoduleinit.2.1, ∃ err,
              env.GetProcAddress (env.LoadLibrary name)
                (env.lastmoduleinit.1 ++ "." ++ symKey e.1) = 0 ∧
              (openPlugin env s name).out =
                Outcome.error (symbolFailureMsg (trimSo name) (symKey e.1) err))) := by
  constructor
  · intro he
    rw [open_init_failed env s name hl hf hmap he]
    intro e hmem
    simp only [reserveTrace, List.mem_cons, List.mem_singleton, List.not_mem_nil,
      or_false] at hmem
    rcases hmem with h | h | h | h | h | h <;> subst h <;> exact ⟨rfl, rfl⟩
  · intro he
    rw [open_loading env s name hl hf hmap he]
    refine ⟨?_, ?_⟩
    · obtain ⟨tail, htr, htail⟩ := loadBody_trace env
        (reservedState s (goString name) env.lastmoduleinit.1 "" Chan.unclosed)
        s.heap.length (env.LoadLibrary name) env.lastmoduleinit.1
        env.lastmoduleinit.2.1 (trimSo name) (pluginOpen env name none).2
      refine ⟨tail, ?_, ?_, ?_⟩
      · simp only [htr, initTrace]
        split <;> simp
      · intro e hmem
        simp only [reserveTrace, List.mem_cons, List.mem_singleton, List.not_mem_nil,
          or_false] at hmem
        rcases hmem with h | h | h | h | h | h <;> subst h <;> exact ⟨rfl, rfl⟩
      · intro e hmem
        rcases htail e hmem with ⟨n, h⟩ | h <;> subst h <;> rfl
    · rcases loadBody_cases env
          (reservedState s (goString name) env.lastmoduleinit.1 "" Chan.unclosed)
          s.heap.length (env.LoadLibrary name) env.lastmoduleinit.1
          env.lastmoduleinit.2.1 (trimSo name) (pluginOpen env name none).2 with
        ⟨upd, -, hb⟩ | ⟨msg, hu, hb⟩ | ⟨-, hb⟩
      · rw [hb]; exact Or.inl rfl
      · rw [hb]
        obtain ⟨e, hmem, err, h0, hmsg⟩ := fillSyms_failed _ _ _ _ _ _ _ _ hu
        exact Or.inr (Or.inr ⟨e, hmem, err, h0, by rw [hmsg]⟩)
      · rw [hb]; exact Or.inr (Or.inl rfl)

/-- C7, on an artifact with an initializer at 300 whose symbol `B` is
missing. -/
theorem initializer_protocol_witness :
    (openPlugin missingSymEnv State.init "m.so").trace =
        reserveTrace State.init "m.so" ++
          [Event.resolve 9 "m.init", Event.initCall 300, Event.resolve 9 "m.A",
            Event.resolve 9 "m.B"] ∧
      ((missingSymEnv.lastmoduleinit.2.2 ≠ "" →
        ∀ e ∈ (openPlugin missingSymEnv State.init "m.so").trace,
          isResolve e = false ∧ isInitCall e = false) ∧
      (missingSymEnv.lastmoduleinit.2.2 = "" →
        (∃ tail, (openPlugin missingSymEnv State.init "m.so").trace =
            reserveTrace State.init "m.so" ++
              [Event.resolve (missingSymEnv.LoadLibrary "m.so")
                (missingSymEnv.lastmoduleinit.1 ++ ".init")] ++
              (if missingSymEnv.GetProcAddress (missingSymEnv.LoadLibrary "m.so")
                  (missingSymEnv.lastmoduleinit.1 ++ ".init") ≠ 0
                then [Event.initCall (missingSymEnv.GetProcAddress
                  (missingSymEnv.LoadLibrary "m.so")
                  (missingSymEnv.lastmoduleinit.1 ++ ".init"))]
                else []) ++ tail ∧
            (∀ e ∈ reserveTrace State.init "m.so", isResolve e = false ∧ isInitCall e = false) ∧
            ∀ e ∈ tail, isInitCall e = false) ∧
          ((openPlugin missingSymEnv State.init "m.so").out =
              Outcome.ok State.init.heap.length ∨
            (openPlugin missingSymEnv State.init "m.so").out = Outcome.panicked ∨
            ∃ e ∈ missingSymEnv.lastmoduleinit.2.1, ∃ err,
              missingSymEnv.GetProcAddress (missingSymEnv.LoadLibrary "m.so")
                (missingSymEnv.lastmoduleinit.1 ++ "." ++ symKey e.1) = 0 ∧
              (openPlugin missingSymEnv State.init "m.so").out =
                Outcome.error (symbolFailureMsg (trimSo "m.so") (symKey e.1) err)))) :=
  ⟨by decide,
    initializer_protocol missingSymEnv State.init "m.so" (by decide) (by decide) (by decide)⟩

/-! ## The mutex -/

theorem heldEvents_unlocked (t : List Event)
    (hno : ∀ e ∈ t, e ≠ Event.lock) : heldEvents false t = [] := by
  induction t with
  | nil => rfl
  | cons e rest ih =>
    have hrest := ih (fun x hx => hno x (List.mem_cons_of_mem _ hx))
    have he := hno e (List.mem_cons_self _ _)
    cases e <;> simp_all [heldEvents]

theorem loadBody_no_mutex (env : Env) (s : State) (p h : Nat) (pluginpath : String)
    (syms : List (String × Iface)) (name : String) (cErr : Option String) :
    ∀ e ∈ (loadBody env s p h pluginpath syms name cErr).trace,
      e ≠ Event.lock ∧ e ≠ Event.unlock := by
  obtain ⟨tail, htr, htail⟩ := loadBody_trace env s p h pluginpath syms name cErr
  intro e he
  rw [htr] at he
  rcases List.mem_append.mp he with he | he
  · rcases initTrace_mem env h pluginpath e he with h1 | h1 <;> subst h1 <;>
      exact ⟨by simp, by simp⟩
  · rcases htail e he with ⟨n, h1⟩ | h1 <;> subst h1 <;> exact ⟨by simp, by simp⟩

theorem awaitLoaded_no_mutex (s : State) (p : Nat) :
    ∀ e ∈ (awaitLoaded s p).2, e ≠ Event.lock ∧ e ≠ Event.unlock := by
  intro e he
  unfold awaitLoaded at he
  split at he
  · simp at he
  · split at he
    · simp only [List.mem_singleton] at he
      subst he
      exact ⟨by simp, by simp⟩
    · simp at he

/-- C9, as stated, fails on every fresh load, for one on artifact "sample":
the native map call and the module-init step are among the events that
happen while `pluginsMu` is held. -/
theorem lock_held_only_for_registry_counterexample :
    Event.nativeMap "sample" ∈
        heldEvents false (openPlugin sampleEnv State.init "sample").trace ∧
      Event.moduleInit ∈
        heldEvents false (openPlugin sampleEnv State.init "sample").trace := by
  decide

theorem loadBody_no_lockedStep (env : Env) (s : State) (p h : Nat) (pluginpath : String)
    (syms : List (String × Iface)) (name : String) (cErr : Option String) :
    (loadBody env s p h pluginpath syms name cErr).trace.filter isLockedStep = [] := by
  obtain ⟨tail, htr, htail⟩ := loadBody_trace env s p h pluginpath syms name cErr
  rw [List.filter_eq_nil_iff]
  intro e he
  rw [htr] at he
  rcases List.mem_append.mp he with he | he
  · rcases initTrace_mem env h pluginpath e he with h1 | h1 <;> subst h1 <;> simp [isLockedStep]
  · rcases htail e he with ⟨n, h1⟩ | h1 <;> subst h1 <;> simp [isLockedStep]

theorem awaitLoaded_no_lockedStep (s : State) (p : Nat) :
    (awaitLoaded s p).2.filter isLockedStep = [] := by
  rw [List.filter_eq_nil_iff]
  intro e he
  unfold awaitLoaded at he
  split at he
  · simp at he
  · split at he
    · simp only [List.mem_singleton] at he
      subst he
      simp [isLockedStep]
    · simp at he

theorem held_hit (env : Env) (s : State) (name : String) (p : Nat)
    (hl : s.locked = false) (hf : s.find (goString name) = some p) :
    heldEvents false (openPlugin env s name).trace = [Event.regRead (goString name)] ∧
      (openPlugin env s name).trace.filter isLockedStep = [Event.regRead (goString name)] := by
  cases hd : s.deref p with
  | none => rw [open_hit_fault env s name p hl hf hd]; simp [heldEvents, isLockedStep]
  | some r =>
    by_cases he : r.err = ""
    · rw [open_hit_wait env s name p r hl hf hd he]
      have h0 := heldEvents_unlocked _ (fun e h => (awaitLoaded_no_mutex s p e h).1)
      have h1 := awaitLoaded_no_lockedStep s p
      simp [heldEvents, h0, h1, isLockedStep, List.filter_cons]
    · rw [open_hit_failed env s name p r hl hf hd he]; simp [heldEvents, isLockedStep]

theorem held_map_failed (env : Env) (s : State) (name : String)
    (hl : s.locked = false) (hf : s.find (goString name) = none)
    (hm : env.LoadLibrary name = 0) :
    heldEvents false (openPlugin env s name).trace =
        [Event.regRead (goString name), Event.nativeMap name] ∧
      (openPlugin env s name).trace.filter isLockedStep =
        [Event.regRead (goString name), Event.nativeMap name] := by
  rw [open_map_failed env s name hl hf hm]
  simp [heldEvents, isLockedStep]

theorem held_mapped (env : Env) (s : State) (name : String)
    (hl : s.locked = false) (hf : s.find (goString name) = none)
    (hm : env.LoadLibrary name ≠ 0) :
    heldEvents false (openPlugin env s name).trace =
        [Event.regRead (goString name), Event.nativeMap name, Event.moduleInit,
          Event.regWrite (goString name) s.heap.length] ∧
      (openPlugin env s name).trace.filter isLockedStep =
        [Event.regRead (goString name), Event.nativeMap name, Event.moduleInit,
          Event.regWrite (goString name) s.heap.length] := by
  by_cases he : env.lastmoduleinit.2.2 = ""
  · rw [open_loading env s name hl hf hm he]
    have h0 := heldEvents_unlocked _ (fun e h => (loadBody_no_mutex env
      (reservedState s (goString name) env.lastmoduleinit.1 "" Chan.unclosed)
      s.heap.length (env.LoadLibrary name) env.lastmoduleinit.1
      env.lastmoduleinit.2.1 (trimSo name) (pluginOpen env name none).2 e h).1)
    have h1 := loadBody_no_lockedStep env
      (reservedState s (goString name) env.lastmoduleinit.1 "" Chan.unclosed)
      s.heap.length (env.LoadLibrary name) env.lastmoduleinit.1
      env.lastmoduleinit.2.1 (trimSo name) (pluginOpen env name none).2
    simp [reserveTrace, heldEvents, h0, h1, isLockedStep, List.filter_cons]
  · rw [open_init_failed env s name hl hf hm he]
    simp [reserveTrace, heldEvents, isLockedStep]

theorem held_eq_lockedSteps (env : Env) (s : State) (name : String) :
    heldEvents false (openPlugin env s name).trace =
      (openPlugin env s name).trace.filter isLockedStep := by
  cases hl : s.locked with
  | true => rw [open_parked env s name hl]; rfl
  | false =>
    cases hf : s.find (goString name) with
    | some p =>
      have h := held_hit env s name p hl hf
      rw [h.1, h.2]
    | none =>
      by_cases hm : env.LoadLibrary name = 0
      · have h := held_map_failed env s name hl hf hm
        rw [h.1, h.2]
      · have h := held_mapped env s name hl hf hm
        rw [h.1, h.2]

/-- C9, amended. In every execution of `open`, what happens while `pluginsMu`
is held is the registry lookup, the native map call, the module-init step and
the insertion of the record, and nothing else: no initializer call and no
export resolution happens under the lock. And the lock is held around each of
those four: the events under the lock are exactly the registry accesses, the
native map call and the module-init step of the whole trace, namely the lookup
alone on a cache hit, the lookup and the native map call when the map fails,
and the lookup, the native map call, the module-init step and the insertion
when the map succeeds. -/
theorem lock_not_held_during_plugin_code (env : Env) (s : State) (name : String) :
    (∀ e ∈ heldEvents false (openPlugin env s name).trace,
        e = Event.regRead (goString name) ∨ e = Event.nativeMap name ∨
          e = Event.moduleInit ∨ e = Event.regWrite (goString name) s.heap.length) ∧
      (∀ e ∈ heldEvents false (openPlugin env s name).trace,
        isInitCall e = false ∧ isResolve e = false) ∧
      heldEvents false (openPlugin env s name).trace =
        (openPlugin env s name).trace.filter isLockedStep ∧
      (s.locked = false →
        (∀ p, s.find (goString name) = some p →
          heldEvents false (openPlugin env s name).trace =
            [Event.regRead (goString name)]) ∧
        (s.find (goString name) = none → env.LoadLibrary name = 0 →
          heldEvents false (openPlugin env s name).trace =
            [Event.regRead (goString name), Event.nativeMap name]) ∧
        (s.find (goString name) = none → env.LoadLibrary name ≠ 0 →
          heldEvents false (openPlugin env s name).trace =
            [Event.regRead (goString name), Event.nativeMap name, Event.moduleInit,
              Event.regWrite (goString name) s.heap.length])) := by
  have key : ∀ e ∈ heldEvents false (openPlugin env s name).trace,
      e = Event.regRead (goString name) ∨ e = Event.nativeMap name ∨
        e = Event.moduleInit ∨ e = Event.regWrite (goString name) s.heap.length := by
    cases hl : s.locked with
    | true => rw [open_parked env s name hl]; simp [heldEvents]
    | false =>
      cases hf : s.find (goString name) with
      | some p =>
        rw [(held_hit env s name p hl hf).1]
        simp
      | none =>
        by_cases hm : env.LoadLibrary name = 0
        · rw [(held_map_failed env s name hl hf hm).1]
          simp
        · rw [(held_mapped env s name hl hf hm).1]
          simp
  refine ⟨key, ?_, held_eq_lockedSteps env s name, ?_⟩
  · intro e he
    rcases key e he with h | h | h | h <;> subst h <;> exact ⟨rfl, rfl⟩
  · intro hl
    exact ⟨fun p hf => (held_hit env s name p hl hf).1,
      fun hf hm => (held_map_failed env s name hl hf hm).1,
      fun hf hm => (held_mapped env s name hl hf hm).1⟩

/-- C9, amended, on the fresh load of "sample" and on the cache hit of a second
`open("sample")`. -/
theorem lock_not_held_during_plugin_code_witness :
    heldEvents false (openPlugin sampleEnv State.init "sample").trace =
        [Event.regRead (goString "sample"), Event.nativeMap "sample", Event.moduleInit,
          Event.regWrite (goString "sample") State.init.heap.length] ∧
      heldEvents false
          (openPlugin sampleEnv (openPlugin sampleEnv State.init "sample").st "sample").trace =
        [Event.regRead (goString "sample")] ∧
      heldEvents false (openPlugin sampleEnv State.init "sample").trace =
        (openPlugin sampleEnv State.init "sample").trace.filter isLockedStep :=
  ⟨((lock_not_held_during_plugin_code sampleEnv State.init "sample").2.2.2
      (by decide)).2.2 (by decide) (by decide),
    ((lock_not_held_during_plugin_code sampleEnv
      (openPlugin sampleEnv State.init "sample").st "sample").2.2.2 (by decide)).1 0
      (by decide),
    (lock_not_held_during_plugin_code sampleEnv State.init "sample").2.2.1⟩

/-- C10. When `pluginsMu` is free at entry, the trace of `open` is one `lock`,
some events, one `unlock`, and further events, with no other `lock` or
`unlock` among them, whatever the native map, the module-init step and the
resolutions answer and however the call ends; and the mutex is free
afterwards. -/
theorem lock_balance (env : Env) (s : State) (name : String) (hl : s.locked = false) :
    (∃ mid rest, (openPlugin env s name).trace = Event.lock :: mid ++ Event.unlock :: rest ∧
        ∀ e ∈ mid ++ rest, e ≠ Event.lock ∧ e ≠ Event.unlock) ∧
      (openPlugin env s name).trace.count Event.lock = 1 ∧
      (openPlugin env s name).trace.count Event.unlock = 1 ∧
      (openPlugin env s name).st.locked = false := by
  have key : (∃ mid rest, (openPlugin env s name).trace =
        Event.lock :: mid ++ Event.unlock :: rest ∧
        ∀ e ∈ mid ++ rest, e ≠ Event.lock ∧ e ≠ Event.unlock) := by
    cases hf : s.find (goString name) with
    | some p =>
      cases hd : s.deref p with
      | none =>
        rw [open_hit_fault env s name p hl hf hd]
        exact ⟨[Event.regRead (goString name)], [], rfl, by simp⟩
      | some r =>
        by_cases he : r.err = ""
        · rw [open_hit_wait env s name p r hl hf hd he]
          refine ⟨[Event.regRead (goString name)], (awaitLoaded s p).2, rfl, ?_⟩
          intro e hmem
          rcases List.mem_append.mp hmem with h | h
          · simp only [List.mem_singleton] at h
            subst h
            exact ⟨by simp, by simp⟩
          · exact awaitLoaded_no_mutex s p e h
        · rw [open_hit_failed env s name p r hl hf hd he]
          exact ⟨[Event.regRead (goString name)], [], rfl, by simp⟩
    | none =>
      by_cases hm : env.LoadLibrary name = 0
      · rw [open_map_failed env s name hl hf hm]
        exact ⟨[Event.regRead (goString name), Event.nativeMap name], [], rfl, by simp⟩
      · by_cases he : env.lastmoduleinit.2.2 = ""
        · rw [open_loading env s name hl hf hm he]
          refine ⟨[Event.regRead (goString name), Event.nativeMap name, Event.moduleInit,
            Event.regWrite (goString name) s.heap.length], _, rfl, ?_⟩
          intro e hmem
          rcases List.mem_append.mp hmem with h | h
          · simp only [List.mem_cons, List.mem_singleton, List.not_mem_nil, or_false] at h
            rcases h with h | h | h | h <;> subst h <;> exact ⟨by simp, by simp⟩
          · exact loadBody_no_mutex _ _ _ _ _ _ _ _ e h
        · rw [open_init_failed env s name hl hf hm he]
          exact ⟨[Event.regRead (goString name), Event.nativeMap name, Event.moduleInit,
            Event.regWrite (goString name) s.heap.length], [], rfl, by simp⟩
  have hlocked : (openPlugin env s name).st.locked = false :=
    (open_extends env s name).1.trans hl
  obtain ⟨mid, rest, htr, hno⟩ := key
  refine ⟨⟨mid, rest, htr, hno⟩, ?_, ?_, hlocked⟩
  · rw [htr]
    have h1 : mid.count Event.lock = 0 :=
      List.count_eq_zero.mpr (fun h => (hno _ (List.mem_append_left _ h)).1 rfl)
    have h2 : rest.count Event.lock = 0 :=
      List.count_eq_zero.mpr (fun h => (hno _ (List.mem_append_right _ h)).1 rfl)
    simp [List.count_cons, List.count_append, h1, h2]
  · rw [htr]
    have h1 : mid.count Event.unlock = 0 :=
      List.count_eq_zero.mpr (fun h => (hno _ (List.mem_append_left _ h)).2 rfl)
    have h2 : rest.count Event.unlock = 0 :=
      List.count_eq_zero.mpr (fun h => (hno _ (List.mem_append_right _ h)).2 rfl)
    simp [List.count_cons, List.count_append, h1, h2]

/-- C10, on the load of "m.so" that ends with a symbol-resolution failure. -/
theorem lock_balance_witness :
    (openPlugin missingSymEnv State.init "m.so").trace =
        [Event.lock, Event.regRead "m.so", Event.nativeMap "m.so", Event.moduleInit,
          Event.regWrite "m.so" 0, Event.unlock, Event.resolve 9 "m.init",
          Event.initCall 300, Event.resolve 9 "m.A", Event.resolve 9 "m.B"] ∧
      ((∃ mid rest, (openPlugin missingSymEnv State.init "m.so").trace =
          Event.lock :: mid ++ Event.unlock :: rest ∧
          ∀ e ∈ mid ++ rest, e ≠ Event.lock ∧ e ≠ Event.unlock) ∧
        (openPlugin missingSymEnv State.init "m.so").trace.count Event.lock = 1 ∧
        (openPlugin missingSymEnv State.init "m.so").trace.count Event.unlock = 1 ∧
        (openPlugin missingSymEnv State.init "m.so").st.locked = false) :=
  ⟨by decide, lock_balance missingSymEnv State.init "m.so" (by decide)⟩

/-! ## Concurrent callers: single steps -/

/-- A caller that runs alone, for two steps, does what `openPlugin` does. -/
theorem solo_run_eq_open (env : Env) (s : State) (name : String) :
    (runSched env (concurrentOpens s name 1) [0, 0]).st = (openPlugin env s name).st ∧
      (runSched env (concurrentOpens s name 1) [0, 0]).trace = (openPlugin env s name).trace ∧
      ((openPlugin env s name).out ≠ Outcome.blocked →
        (runSched env (concurrentOpens s name 1) [0, 0]).callers =
          [Caller.finished (openPlugin env s name).out]) := by
  rcases h : reserve env s name with ⟨ph, s1, tr⟩
  cases ph with
  | parked =>
    have hs : s.locked = true := by
      unfold reserve at h
      by_contra hc
      simp only [Bool.not_eq_true] at hc
      rw [hc] at h
      simp only [Bool.false_eq_true, if_false] at h
      split at h
      · split at h
        · cases h
        · split at h <;> cases h
      · split at h
        · cases h
        · split at h <;> cases h
    have h2 : reserve env s name = (Phase.parked, s, []) := by simp [reserve, hs]
    simp [runSched, stepSys, concurrentOpens, stepCaller, openPlugin, h2]
  | returned out =>
    simp [runSched, stepSys, concurrentOpens, stepCaller, openPlugin, h]
  | waiting p =>
    rcases hw : awaitLoaded s1 p with ⟨out, tr2⟩
    cases out <;>
      simp [runSched, stepSys, concurrentOpens, stepCaller, openPlugin, h, hw]
    unfold awaitLoaded at hw
    split at hw
    · cases hw
    · split at hw
      · cases hw
      · cases hw
        rfl
  | loading p hd pp syms shown cErr =>
    simp [runSched, stepSys, concurrentOpens, stepCaller, openPlugin, h]

/-! ## Concurrent callers: the invariant -/

end GoPlugin
